import Mathlib

/-!
Verification of the To-The-Moon trading bot core against its specification.

The development shallowly embeds the JavaScript sources:
* `src/rag/ragAgent.js` — decision normalization and the RAG workflow orchestrator;
* `src/rag/vectorStore.js` — fingerprinting, cosine similarity, similarity search;
* `src/trading/riskManager.js` — order validation and position sizing;
* `src/trading/tradingEngine.js` — engine start/stop state machine and order building.

JavaScript numbers are modelled as rationals (`ℚ`) where the code performs exact
comparisons and as reals (`ℝ`) where square roots occur (vector magnitudes).
Non-finite results of `parseFloat` (NaN, ±Infinity) are modelled as `Option.none`,
which is behaviour-preserving because the code only ever branches on
`Number.isFinite`. External collaborators (DeepSeek, GPT, the exchange, the file
system, `JSON.parse`/`JSON.stringify`) are parameters of the embedding.
-/

namespace ToTheMoon

/-- Model of a JSON-like JavaScript value as passed around the decision pipeline.
Decision payloads reach `normalizeDecision` through `JSON.parse` (or an already
parsed axios body), so only JSON shapes occur: null, booleans, finite numbers,
strings and objects.  Objects are modelled as association lists up to field
lookup. -/
inductive JsonVal where
  | vnull : JsonVal
  | vbool (b : Bool) : JsonVal
  | vnum (q : ℚ) : JsonVal
  | vstr (s : String) : JsonVal
  | vobj (fields : List (String × JsonVal)) : JsonVal
deriving Repr

namespace JsonVal

/-- JavaScript truthiness of a value (JSON values only, so no NaN case). -/
def truthy : JsonVal → Bool
  | .vnull => false
  | .vbool b => b
  | .vnum q => q ≠ 0
  | .vstr s => s ≠ ""
  | .vobj _ => true

/-- Whether `typeof v === "object"`; in JavaScript `typeof null` is `"object"`. -/
def typeofObject : JsonVal → Bool
  | .vnull => true
  | .vobj _ => true
  | _ => false

/-- The test `typeof v === "object" && v !== null`, used by the nested-decision
unwrap; on the values of the model it holds exactly for objects. -/
def isNonNullObject : JsonVal → Bool
  | .vobj _ => true
  | _ => false

end JsonVal

/-- Property access `v[k]`; `none` models `undefined`. -/
def getField : JsonVal → String → Option JsonVal
  | .vobj fs, k => fs.lookup k
  | _, _ => none

/-- Record the assignment `obj[k] = v` on an association-list object.  The JS
object keeps the key in place; we model objects up to `List.lookup`, so the
entry is placed in front and stale entries for the key are dropped. -/
def setField (fs : List (String × JsonVal)) (k : String) (v : JsonVal) :
    List (String × JsonVal) :=
  (k, v) :: fs.filter (fun p => p.1 ≠ k)

/-- Evaluate the JS expression `e || d` where `e` is a (possibly undefined)
property access. -/
def orDefault (v : Option JsonVal) (d : JsonVal) : JsonVal :=
  match v with
  | some x => if x.truthy then x else d
  | none => d

/-- One step of the JS nullish chain `e ?? ...`: `null` and `undefined` are
both skipped. -/
def nonNullish (v : Option JsonVal) : Option JsonVal :=
  match v with
  | some .vnull => none
  | some x => some x
  | none => none

/-- Stand-in for JavaScript number-to-string conversion.  The digits of the
numerator and denominator are printed; the pipeline only ever inspects such a
string for emptiness and for membership in BUY/SELL/HOLD, which a numeral can
never satisfy. -/
def numToString (q : ℚ) : String :=
  if q.den = 1 then toString q.num else toString q.num ++ "/" ++ toString q.den

/-- JavaScript `String(v)` for the values of the model (`Object.prototype.toString`
yields the fixed text for plain objects). -/
def jsToString : JsonVal → String
  | .vnull => "null"
  | .vbool b => if b then "true" else "false"
  | .vnum q => numToString q
  | .vstr s => s
  | .vobj _ => "[object Object]"

/-- The characters of `s.trim`, written with list primitives (JS `trim`
removes whitespace from both ends). -/
def trimChars (cs : List Char) : List Char :=
  ((cs.dropWhile (fun c => c.isWhitespace)).reverse.dropWhile
    (fun c => c.isWhitespace)).reverse

/-- JavaScript `s.trim()`. -/
def jsTrim (s : String) : String :=
  String.mk (trimChars s.data)

/-- JavaScript `s.toUpperCase()` on the ASCII strings of the pipeline. -/
def jsToUpper (s : String) : String :=
  String.mk (s.data.map Char.toUpper)

/-- Digits accumulated into a natural number, most significant first. -/
def digitsToNat (cs : List Char) : ℕ :=
  cs.foldl (fun n c => 10 * n + (c.toNat - '0'.toNat)) 0

/-- Model of `Number.parseFloat` on a string: optional leading whitespace and
sign, a decimal mantissa, an optional exponent; the longest valid prefix is
parsed and trailing characters are ignored.  `none` models a non-finite result
(`NaN`, or an `Infinity` literal, which the pipeline treats identically via
`Number.isFinite`). -/
def parseFloat (s : String) : Option ℚ :=
  let cs := s.data.dropWhile (fun c => c.isWhitespace)
  let sign : ℚ := if cs.headD ' ' = '-' then -1 else 1
  let cs := match cs with
    | '-' :: t => t
    | '+' :: t => t
    | _ => cs
  let intDigits := cs.takeWhile (fun c => c.isDigit)
  let rest := cs.dropWhile (fun c => c.isDigit)
  let fracDigits : List Char := match rest with
    | '.' :: t => t.takeWhile (fun c => c.isDigit)
    | _ => []
  let afterMant : List Char := match rest with
    | '.' :: t => t.dropWhile (fun c => c.isDigit)
    | _ => rest
  if intDigits.isEmpty ∧ fracDigits.isEmpty then none
  else
    let mantissa : ℚ :=
      (digitsToNat intDigits : ℚ) + (digitsToNat fracDigits : ℚ) / ((10 : ℚ) ^ fracDigits.length)
    let expVal : ℤ := match afterMant with
      | 'e' :: t | 'E' :: t =>
        let esign : ℤ := if t.headD ' ' = '-' then -1 else 1
        let t := match t with
          | '-' :: u => u
          | '+' :: u => u
          | _ => t
        let eDigits := t.takeWhile (fun c => c.isDigit)
        if eDigits.isEmpty then 0 else esign * (digitsToNat eDigits : ℤ)
      | _ => 0
    some (sign * mantissa * (10 : ℚ) ^ expVal)

/-- `Number.parseFloat(v)` for a model value: finite numbers pass through
(JS stringification round-trips them); everything else is stringified and
parsed. -/
def jsParseFloat : JsonVal → Option ℚ
  | .vnum q => some q
  | v => parseFloat (jsToString v)

/-- The one-level unwrap at the top of `normalizeDecision`
(`ragAgent.js` lines 243-246): a nested non-null object under the `decision`
key becomes the candidate. -/
def unwrapCandidate (decision : JsonVal) : JsonVal :=
  match getField decision "decision" with
  | some d => if d.isNonNullObject then d else decision
  | none => decision

/-- Fields of a candidate object (the candidate is always an object once the
top-level guard has passed). -/
def candidateFields : JsonVal → List (String × JsonVal)
  | .vobj fs => fs
  | _ => []

/-- The `action` local of `normalizeDecision`:
`(candidate.action || "").toString().trim().toUpperCase()`. -/
def candAction (candidate : JsonVal) : String :=
  jsToUpper (jsTrim (jsToString (orDefault (getField candidate "action") (.vstr ""))))

/-- The `reasoning` field: `candidate.reasoning ?? candidate.explanation ?? ""`. -/
def candReasoning (candidate : JsonVal) : JsonVal :=
  (nonNullish (getField candidate "reasoning")).getD
    ((nonNullish (getField candidate "explanation")).getD (.vstr ""))

/-- The clamped confidence:
`Number.parseFloat(candidate.confidence ?? 0)` clamped to `[0, 1]`, 0 when not
finite. -/
def candConfidence (candidate : JsonVal) : ℚ :=
  match jsParseFloat ((nonNullish (getField candidate "confidence")).getD (.vnum 0)) with
  | some c => max 0 (min 1 c)
  | none => 0

/-- The `symbol` local:
`(candidate.symbol || candidate.ticker || "").toString().trim()`. -/
def candSymbol (candidate : JsonVal) : String :=
  jsTrim (jsToString (orDefault (getField candidate "symbol")
    (orDefault (getField candidate "ticker") (.vstr ""))))

/-- The quantity after alias resolution
(`candidate.quantity ?? candidate.size ?? candidate.amount`) and string
parsing; `none` when absent or not a finite number. -/
def candQuantity (candidate : JsonVal) : Option ℚ :=
  match (nonNullish (getField candidate "quantity")).orElse
      (fun _ => (nonNullish (getField candidate "size")).orElse
        (fun _ => nonNullish (getField candidate "amount"))) with
  | some (.vstr s) => parseFloat s
  | some (.vnum q) => some q
  | some _ => none
  | none => none

/-- The object `{...candidate, action, reasoning}` after the
`normalized.confidence` assignment. -/
def normWithConf (candidate : JsonVal) : List (String × JsonVal) :=
  setField
    (setField (setField (candidateFields candidate) "action" (.vstr (candAction candidate)))
      "reasoning" (candReasoning candidate))
    "confidence" (.vnum (candConfidence candidate))

/-- Shallow embedding of `RAGAgent.normalizeDecision` (`ragAgent.js` lines
238-291), with the source's local computations named by the `cand*` helpers
above.  A thrown `Error` is an `Except.error` carrying the message. -/
def normalizeDecision (decision : JsonVal) :
    Except String (List (String × JsonVal)) :=
  if ¬ decision.truthy ∨ ¬ decision.typeofObject then
    .error "Decision payload must be an object"
  else
    let candidate := unwrapCandidate decision
    let action := candAction candidate
    if action = "" then .error "Decision is missing an action"
    else if ¬ (action = "BUY" ∨ action = "SELL" ∨ action = "HOLD") then
      .error ("Unsupported decision action: " ++ action)
    else
      if action = "BUY" ∨ action = "SELL" then
        let symbol := candSymbol candidate
        if symbol = "" then
          .error ("Decision action " ++ action ++ " requires a symbol")
        else
          match candQuantity candidate with
          | some q =>
            if q ≤ 0 then
              .error ("Decision action " ++ action ++ " requires a positive quantity")
            else
              .ok (setField (setField (normWithConf candidate) "symbol" (.vstr symbol))
                "quantity" (.vnum q))
          | none =>
            .error ("Decision action " ++ action ++ " requires a positive quantity")
      else
        .ok (setField (setField (normWithConf candidate) "symbol"
          ((nonNullish (getField candidate "symbol")).getD .vnull)) "quantity" (.vnum 0))

/-! ## Risk manager (`src/trading/riskManager.js`) -/

/-- JavaScript falsiness of a possibly-missing string field (`undefined` or
the empty string). -/
def strFalsy : Option String → Bool
  | none => true
  | some s => s = ""

/-- JavaScript falsiness of a possibly-missing numeric field (`undefined` or
`0`). -/
def numFalsy : Option ℚ → Bool
  | none => true
  | some q => q = 0

/-- The JS expression `price ? parseFloat(price) : 1`: a missing or zero price
falls back to 1. -/
def priceOr1 : Option ℚ → ℚ
  | some p => if p = 0 then 1 else p
  | none => 1

/-- An order as destructured by `validateOrder`.  Numeric fields carry the
value `parseFloat` would produce. -/
structure JsOrder where
  pair : Option String
  side : Option String
  quantity : Option ℚ
  price : Option ℚ
  order_type : Option String
deriving Repr, DecidableEq

/-- The slice of a portfolio snapshot that `validateOrder` reads: the balance
map from currency symbol to amount. -/
structure Portfolio where
  balance : List (String × ℚ)
deriving Repr, DecidableEq

/-- Result record `{valid, reason}` of the risk checks; `reason` is `none`
where the source omits the field. -/
structure ValidationResult where
  valid : Bool
  reason : Option String
deriving Repr, DecidableEq

/-- `parseFloat(balance[k] || 0)`. -/
def lookupBalance (bal : List (String × ℚ)) (k : String) : ℚ :=
  (bal.lookup k).getD 0

/-- `pair.split(sep)` for a one-character separator, written over the character
list (splitting at each separator character, exactly as the JS split does). -/
def pairParts (pair : String) : List String :=
  (pair.data.splitOnP (fun c => c = '/')).map (fun cs => String.mk cs)

/-- Shallow embedding of `calculatePortfolioValue` (`riskManager.js` lines
105-115): the naive cross-currency sum of the balance amounts; `totalValue || 1`
substitutes 1 exactly when the sum is 0. -/
def calculatePortfolioValue (portfolio : Portfolio) : ℚ :=
  let total := (portfolio.balance.map (fun p => p.2)).sum
  if total = 0 then 1 else total

/-- Shallow embedding of `checkPositionSize` (`riskManager.js` lines 81-100).
`maxPositionSize` is the `config.trading.maxPositionSize` value, passed as a
parameter. -/
def checkPositionSize (maxPositionSize : ℚ) (order : JsOrder)
    (portfolio : Portfolio) : ValidationResult :=
  let orderValue := order.quantity.getD 0 * priceOr1 order.price
  let totalPortfolioValue := calculatePortfolioValue portfolio
  if orderValue / totalPortfolioValue > maxPositionSize then
    { valid := false, reason := some "Position size exceeds maximum" }
  else
    { valid := true, reason := none }

/-- Shallow embedding of `validateOrder` (`riskManager.js` lines 12-76).
JavaScript indexes `balance[quoteCurrency]` with `quoteCurrency === undefined`
when the pair has no `/` separator, which reads the property named
`"undefined"`. -/
def validateOrder (maxPositionSize : ℚ) (order : JsOrder)
    (portfolio : Portfolio) : ValidationResult :=
  if strFalsy order.pair ∨ strFalsy order.side ∨ numFalsy order.quantity then
    { valid := false, reason := some "Missing required order fields" }
  else if order.quantity.getD 0 ≤ 0 then
    { valid := false, reason := some "Quantity must be positive" }
  else if order.order_type = some "LIMIT" ∧
      (numFalsy order.price ∨ order.price.getD 0 ≤ 0) then
    { valid := false, reason := some "LIMIT orders require a valid price" }
  else
    let parts := pairParts (order.pair.getD "")
    let baseCurrency := parts.headD ""
    let quoteKey := (parts[1]?).getD "undefined"
    if order.side = some "BUY" ∧
        order.quantity.getD 0 * priceOr1 order.price >
          lookupBalance portfolio.balance quoteKey then
      { valid := false, reason := some ("Insufficient " ++ quoteKey ++ " balance") }
    else if order.side = some "SELL" ∧
        order.quantity.getD 0 > lookupBalance portfolio.balance baseCurrency then
      { valid := false, reason := some ("Insufficient " ++ baseCurrency ++ " balance") }
    else
      let positionSizeCheck := checkPositionSize maxPositionSize order portfolio
      if positionSizeCheck.valid = false then positionSizeCheck
      else { valid := true, reason := some "Order validated successfully" }

/-- The fields of `signal` read by `calculatePositionSize`; the `confidence`
destructuring default is 0.5. -/
structure TradeSignal where
  confidence : Option ℚ
  price : Option ℚ
deriving Repr, DecidableEq

/-- Result of `calculatePositionSize`: either the soft failure object
`{quantity: 0, reason}` or the full sizing record. -/
inductive PositionSizeResult where
  | noPrice (quantity : ℚ) (reason : String)
  | sized (quantity riskAmount adjustedRisk maxQuantity : ℚ)
deriving Repr, DecidableEq

/-- Shallow embedding of `calculatePositionSize` (`riskManager.js` lines
120-156).  `riskPerTrade` and `maxPositionSize` are the values after the
destructuring defaults from `config.trading` have been resolved. -/
def calculatePositionSize (riskPerTrade maxPositionSize : ℚ)
    (signal : TradeSignal) (balance : List (String × ℚ)) : PositionSizeResult :=
  if numFalsy signal.price then
    .noPrice 0 "Price not available"
  else
    let confidence := signal.confidence.getD (1/2)
    let price := signal.price.getD 0
    let adjustedRisk := riskPerTrade * confidence
    let totalBalance := (balance.map (fun p => p.2)).sum
    let riskAmount := totalBalance * adjustedRisk
    let quantity := riskAmount / price
    let maxQuantity := totalBalance * maxPositionSize / price
    .sized (max 0 (min quantity maxQuantity)) riskAmount adjustedRisk maxQuantity

/-! ## Vector store (`src/rag/vectorStore.js`) -/

/-- ToInt32 coercion performed by the JS bitwise operations in `simpleHash`. -/
def toInt32 (z : ℤ) : ℤ :=
  let r := z % 4294967296
  if r < 2147483648 then r else r - 4294967296

/-- One loop iteration of `simpleHash`: `hash = ((hash << 5) - hash) + char;
hash = hash & hash`.  The shift wraps at 32 bits, the sum is exact, the final
`&` coerces back to a signed 32-bit integer. -/
def hashStep (h : ℤ) (c : Char) : ℤ :=
  toInt32 (toInt32 (h * 32) - h + (c.toNat : ℤ))

/-- Shallow embedding of `simpleHash` (`vectorStore.js` lines 51-59) on the
characters of a token, ending with `Math.abs`. -/
def simpleHash (cs : List Char) : ℕ :=
  (cs.foldl hashStep 0).natAbs

/-- Whether a character matches the JS regex class `\w`. -/
def jsWordChar (c : Char) : Bool :=
  c.isAlphanum || c = '_'

/-- Tokenization step of `generateEmbedding` (`vectorStore.js` lines 35-38):
lower-case, replace `[^\w\s]` by spaces, split on whitespace, keep tokens of
length over 2.  Splitting at every whitespace character instead of at maximal
runs only produces extra empty fragments, all removed by the length filter. -/
def tokenize (text : String) : List (List Char) :=
  let lowered := text.data.map Char.toLower
  let replaced := lowered.map (fun c =>
    if ¬ jsWordChar c ∧ ¬ c.isWhitespace then ' ' else c)
  (replaced.splitOnP (fun c => c.isWhitespace)).filter (fun w => w.length > 2)

/-- Hash bucket of a token among the 128 embedding slots. -/
def bucket (w : List Char) : ℕ :=
  simpleHash w % 128

/-- The statement `embedding[i] += 1`. -/
def bumpAt (l : List ℕ) (i : ℕ) : List ℕ :=
  l.set i ((l.getD i 0) + 1)

/-- The raw bucket counts accumulated by the `words.forEach` loop of
`generateEmbedding`, starting from `new Array(128).fill(0)`. -/
def rawEmbedding (ws : List (List Char)) : List ℕ :=
  ws.foldl (fun e w => bumpAt e (bucket w)) (List.replicate 128 0)

/-- Euclidean norm of a vector, as computed by the source:
`Math.sqrt(v.reduce((sum, val) => sum + val * val, 0))`. -/
noncomputable def l2norm (v : List ℝ) : ℝ :=
  Real.sqrt ((v.map (fun x => x * x)).sum)

/-- The normalization step of `generateEmbedding` (`vectorStore.js` lines
46-48): divide by the magnitude when it is positive, otherwise keep zeros. -/
noncomputable def normalizeVec (e : List ℝ) : List ℝ :=
  let magnitude := l2norm e
  e.map (fun v => if magnitude > 0 then v / magnitude else 0)

/-- Shallow embedding of `generateEmbedding` (`vectorStore.js` lines 32-49),
the `fingerprint` function of the spec. -/
noncomputable def generateEmbedding (text : String) : List ℝ :=
  normalizeVec ((rawEmbedding (tokenize text)).map (fun n : ℕ => (n : ℝ)))

/-- Shallow embedding of `cosineSimilarity` (`vectorStore.js` lines 64-82):
0 for vectors of different length or when either magnitude is 0. -/
noncomputable def cosineSimilarity (v1 v2 : List ℝ) : ℝ :=
  if v1.length ≠ v2.length then 0
  else
    let dotProduct := ((v1.zip v2).map (fun p => p.1 * p.2)).sum
    let magnitude1 := l2norm v1
    let magnitude2 := l2norm v2
    if magnitude1 = 0 ∨ magnitude2 = 0 then 0
    else dotProduct / (magnitude1 * magnitude2)

/-- A persisted strategy record. -/
structure StrategyEntry where
  id : String
  strategy : String
  embedding : List ℝ
  metadata : List (String × String)
  timestamp : String

/-- In-memory state of the vector store: the append-only record list. -/
structure VectorStore where
  strategies : List StrategyEntry

/-- The `this.strategies.map` step of `searchSimilar` annotating every record
with its similarity to the query embedding. -/
noncomputable def scoreEntries (store : VectorStore) (queryEmbedding : List ℝ) :
    List (StrategyEntry × ℝ) :=
  store.strategies.map (fun e => (e, cosineSimilarity queryEmbedding e.embedding))

/-- Shallow embedding of `searchSimilar` (`vectorStore.js` lines 107-124):
filter similarities above 0.1, sort descending (JS `Array.prototype.sort` is
stable, modelled by a stable insertion sort), take the first `topK`. -/
noncomputable def searchSimilar (store : VectorStore) (query : String)
    (topK : ℕ) : List (StrategyEntry × ℝ) :=
  let queryEmbedding := generateEmbedding query
  let results :=
    ((scoreEntries store queryEmbedding).filter (fun p => p.2 > 1/10)).insertionSort
      (fun a b => b.2 ≤ a.2)
  results.take topK

/-- Outcome of the synchronous `fs.writeFileSync` call inside
`saveStrategies`. -/
inductive WriteOutcome where
  | ok : WriteOutcome
  | fail (msg : String) : WriteOutcome
deriving Repr, DecidableEq

/-- Shallow embedding of `addStrategy` (`vectorStore.js` lines 87-102) together
with `saveStrategies` (lines 140-147).  `now` is the `Date.now().toString()`
identifier and `ts` the ISO timestamp.  `saveStrategies` wraps the durable
write in try/catch and only logs a failure, so both write outcomes leave the
updated in-memory state and both return the fresh id. -/
noncomputable def addStrategy (store : VectorStore) (now : String)
    (writeResult : WriteOutcome) (strategy : String)
    (metadata : List (String × String)) (ts : String) : VectorStore × String :=
  let entry : StrategyEntry :=
    { id := now, strategy := strategy, embedding := generateEmbedding strategy,
      metadata := metadata, timestamp := ts }
  let store' : VectorStore := { strategies := store.strategies ++ [entry] }
  match writeResult with
  | .ok => (store', entry.id)
  | .fail _ => (store', entry.id)

/-! ## Trading engine (`src/trading/tradingEngine.js`) -/

/-- The engine fields touched by `start`/`stop`, plus a count of interval
timers currently armed in the runtime (incremented by `setInterval`,
decremented by `clearInterval`). -/
structure EngineState where
  isRunning : Bool
  tradingInterval : Option ℕ
  armedTimers : ℕ
deriving Repr, DecidableEq

/-- The constructor state of `TradingEngine`. -/
def freshEngine : EngineState :=
  { isRunning := false, tradingInterval := none, armedTimers := 0 }

/-- Observable outcome of a `start()` call. -/
inductive StartOutcome where
  | alreadyRunning : StartOutcome
  | started : StartOutcome
  | initFailed (msg : String) : StartOutcome
deriving Repr, DecidableEq

/-- Shallow embedding of `TradingEngine.start` (`tradingEngine.js` lines
239-271).  `initResult` is the outcome of the awaited `this.initialize()`
call (connectivity check and initial portfolio fetch); `newTimerId` is the id
`setInterval` returns.  On an init failure the catch block sets
`isRunning = false` and rethrows, leaving no timer armed. -/
def startEngine (s : EngineState) (initResult : Except String Unit)
    (newTimerId : ℕ) : EngineState × StartOutcome :=
  if s.isRunning then (s, .alreadyRunning)
  else
    match initResult with
    | .error e => ({ s with isRunning := false }, .initFailed e)
    | .ok _ =>
      let s1 := { s with isRunning := true, tradingInterval := some newTimerId }
      ({ s1 with armedTimers := s1.armedTimers + 1 }, .started)

/-- Shallow embedding of `TradingEngine.stop` (`tradingEngine.js` lines
276-292).  The boolean reports whether the call acted (false = warning-only
no-op). -/
def stopEngine (s : EngineState) : EngineState × Bool :=
  if ¬ s.isRunning then (s, false)
  else
    let s1 := { s with isRunning := false }
    match s1.tradingInterval with
    | some _ =>
      let s2 := { s1 with tradingInterval := none }
      ({ s2 with armedTimers := s2.armedTimers - 1 }, true)
    | none => (s1, true)

/-- Scheduler state for the cycle-concurrency analysis: whether the engine is
running, whether the interval timer is armed, and how many `runTradingCycle`
invocations are currently in flight (spawned but not yet settled). -/
structure SchedState where
  isRunning : Bool
  timerArmed : Bool
  activeCycles : ℕ
deriving Repr, DecidableEq

/-- Events of the engine event loop relevant to cycle concurrency. -/
inductive SchedEvent where
  | timerTick : SchedEvent
  | cycleEnds : SchedEvent
deriving Repr, DecidableEq

/-- One event-loop step.  A timer tick executes the interval callback of
`start` (`tradingEngine.js` lines 255-261): it spawns `runTradingCycle` as a
fire-and-forget promise whenever `this.isRunning` holds — the callback checks
no cycle-in-progress flag, so an outstanding cycle does not prevent the
spawn. -/
def schedStep (s : SchedState) : SchedEvent → SchedState
  | .timerTick =>
    if s.timerArmed ∧ s.isRunning then { s with activeCycles := s.activeCycles + 1 }
    else s
  | .cycleEnds => { s with activeCycles := s.activeCycles - 1 }

/-- Scheduler state right after a successful `start()`: running, interval
armed, and the immediately fired first cycle still in flight. -/
def engineAfterStart : SchedState :=
  { isRunning := true, timerArmed := true, activeCycles := 1 }

/-- JS falsiness of a possibly-undefined value. -/
def optFalsy (v : Option JsonVal) : Bool :=
  match v with
  | some x => ¬ x.truthy
  | none => true

/-- Strict equality `v === s` of a possibly-undefined value with a string
literal. -/
def isStrEq (v : Option JsonVal) (s : String) : Bool :=
  match v with
  | some (.vstr t) => t = s
  | _ => false

/-- The order object built by `executeDecision` (`tradingEngine.js` lines
114-121).  `price` is `some` exactly when the decision carried a truthy price
(the conditional spread); the inner option is the `parseFloat` result. -/
structure BuiltOrder where
  pair : JsonVal
  side : JsonVal
  order_type : JsonVal
  quantity : Option ℚ
  price : Option (Option ℚ)

/-- How far `executeDecision` gets before handing the built order to risk
validation and submission. -/
inductive ExecOutcome where
  | holdNoAction : ExecOutcome
  | invalidParams : ExecOutcome
  | orderBuilt (order : BuiltOrder) : ExecOutcome

/-- Shallow embedding of the decision-destructuring and order-building prefix
of `TradingEngine.executeDecision` (`tradingEngine.js` lines 100-121); the
remainder validates and submits the built order through collaborators. -/
def executeDecisionOrder (decision : JsonVal) : ExecOutcome :=
  let action := getField decision "action"
  let symbol := getField decision "symbol"
  let quantity := getField decision "quantity"
  let price := getField decision "price"
  let order_type := (getField decision "order_type").getD (.vstr "MARKET")
  if isStrEq action "HOLD" then .holdNoAction
  else if optFalsy symbol ∨ optFalsy quantity then .invalidParams
  else
    .orderBuilt
      { pair := symbol.getD .vnull,
        side := action.getD .vnull,
        order_type := order_type,
        quantity := jsParseFloat (quantity.getD .vnull),
        price := match price with
          | some v => if v.truthy then some (jsParseFloat v) else none
          | none => none }

/-! ## RAG agent (`src/rag/ragAgent.js`) -/

/-- External collaborators of one workflow run: the JSON builtins, the clock,
the durable-write outcome, and the reply (or network failure) of every
collaborator call the workflow makes. -/
structure AgentEnv where
  stringify : JsonVal → String
  jsonParse : String → Option JsonVal
  nowId : String
  nowIso : String
  writeResult : WriteOutcome
  getTradingStrategies : Except String JsonVal
  getFinancialNews : Except String JsonVal
  getStockData : Except String JsonVal
  getMarketSentiment : Except String JsonVal
  performCalculations : Except String JsonVal
  analyzeScenarioSynthesize : Except String JsonVal
  analyzeScenarioDecide : Except String JsonVal

/-- The context record `executeWorkflow` passes to `retrieveStrategies`. -/
structure RagContext where
  marketConditions : JsonVal
  portfolio : JsonVal
  currentPositions : JsonVal
  marketData : JsonVal

/-- The context as a JS object, as `JSON.stringify(context)` sees it in the
fallback branch of `retrieveStrategies`. -/
def ragContextVal (ctx : RagContext) : JsonVal :=
  .vobj [("marketConditions", ctx.marketConditions), ("portfolio", ctx.portfolio),
         ("currentPositions", ctx.currentPositions), ("marketData", ctx.marketData)]

/-- Return shape of `retrieveStrategies`; `allStrategies` may end with the raw
(possibly undefined) `deepSeekStrategies.strategies` value. -/
structure RetrieveResult where
  similarStrategies : List String
  newStrategies : Option JsonVal
  allStrategies : List (Option JsonVal)

/-- The catch branch of `retrieveStrategies` (`ragAgent.js` lines 49-58):
fall back to vector-store-only results with empty new strategies. -/
noncomputable def retrieveFallback (env : AgentEnv) (store : VectorStore)
    (ctx : RagContext) : RetrieveResult × VectorStore :=
  let sim := searchSimilar store (env.stringify (ragContextVal ctx)) 5
  ({ similarStrategies := sim.map (fun p => p.1.strategy),
     newStrategies := some (.vstr ""),
     allStrategies := sim.map (fun p => some (.vstr p.1.strategy)) }, store)

/-- Shallow embedding of `retrieveStrategies` (`ragAgent.js` lines 15-59).
When the DeepSeek call fails, or when a truthy non-string `strategies` value
makes `generateEmbedding` throw inside `addStrategy`, the catch produces the
fallback result. -/
noncomputable def retrieveStrategies (env : AgentEnv) (store : VectorStore)
    (ctx : RagContext) : RetrieveResult × VectorStore :=
  let query := jsToString ctx.marketConditions ++ " " ++
    env.stringify ctx.portfolio ++ " " ++ env.stringify ctx.marketData
  match env.getTradingStrategies with
  | .error _ => retrieveFallback env store ctx
  | .ok ds =>
    let sim := searchSimilar store query 5
    let similar := sim.map (fun p => p.1.strategy)
    let scored := sim.map (fun p => some (JsonVal.vstr p.1.strategy))
    match getField ds "strategies" with
    | some v =>
      if v.truthy then
        match v with
        | .vstr s =>
          let added := addStrategy store env.nowId env.writeResult s
            [("source", "deepseek"), ("context", jsToString ctx.marketConditions)]
            env.nowIso
          ({ similarStrategies := similar, newStrategies := some v,
             allStrategies := scored ++ [some v] }, added.1)
        | _ => retrieveFallback env store ctx
      else
        ({ similarStrategies := similar, newStrategies := some v,
           allStrategies := scored ++ [some v] }, store)
    | none =>
      ({ similarStrategies := similar, newStrategies := none,
         allStrategies := scored ++ [none] }, store)

/-- The three market-context fields collected from GPT. -/
structure MarketContext where
  news : JsonVal
  stockData : JsonVal
  sentiment : JsonVal

/-- Shallow embedding of `collectMarketData` (`ragAgent.js` lines 64-85):
`Promise.all` of the three fetches, any rejection caught and turned into empty
strings. -/
def collectMarketData (env : AgentEnv) : MarketContext :=
  match env.getFinancialNews, env.getStockData, env.getMarketSentiment with
  | .ok news, .ok stockData, .ok sentiment =>
    { news := orDefault (getField news "news") news,
      stockData := orDefault (getField stockData "data") stockData,
      sentiment := sentiment }
  | _, _, _ => { news := .vstr "", stockData := .vstr "", sentiment := .vstr "" }

/-- Return shape of `calculateMetrics`. -/
structure MetricsResult where
  calculations : JsonVal
  raw : Option JsonVal

/-- Shallow embedding of `calculateMetrics` (`ragAgent.js` lines 90-109). -/
def calculateMetrics (env : AgentEnv) : MetricsResult :=
  match env.performCalculations with
  | .ok results =>
    { calculations := orDefault (getField results "calculations") results,
      raw := getField results "raw" }
  | .error _ => { calculations := .vstr "", raw := some .vnull }

/-- Shallow embedding of `synthesizeStrategy` (`ragAgent.js` lines 114-165).
The in-process fallback object counts the strategy inputs; the market-data and
metrics objects always have 3 and 2 keys respectively. -/
def synthesizeStrategy (env : AgentEnv) (strategies : List (Option JsonVal)) :
    JsonVal :=
  match env.analyzeScenarioSynthesize with
  | .ok synthesized => synthesized
  | .error _ =>
    .vobj [("strategy", .vstr "Combined strategy from multiple sources"),
           ("entry", .vstr "Based on technical indicators and market sentiment"),
           ("exit", .vstr "Based on risk metrics"),
           ("risk", .vstr "Medium"),
           ("confidence", .vnum (1/2)),
           ("sources", .vobj [("strategies", .vnum strategies.length),
                              ("marketData", .vnum 3), ("metrics", .vnum 2)])]

/-- The `JSON.parse` step of `makeDecision`: a string reply is parsed (`none`
models the rethrown parse failure), anything else passes through. -/
def parsedDecision (env : AgentEnv) (reply : JsonVal) : Option JsonVal :=
  match reply with
  | .vstr s => env.jsonParse s
  | v => some v

/-- The catch-all fallback object of `makeDecision` (`ragAgent.js` lines
217-221). -/
def holdFallbackDecision : List (String × JsonVal) :=
  [("action", .vstr "HOLD"),
   ("reasoning", .vstr "Error in decision making, defaulting to HOLD"),
   ("confidence", .vnum 0)]

/-- The try-block of `makeDecision` (`ragAgent.js` lines 189-214) as a fallible
computation: collaborator call, JSON parse, schema normalization. -/
def decideStepOutcome (env : AgentEnv) : Except String (List (String × JsonVal)) :=
  match env.analyzeScenarioDecide with
  | .error e => .error e
  | .ok reply =>
    match parsedDecision env reply with
    | none => .error "Invalid decision format received from DeepSeek"
    | some p => normalizeDecision p

/-- Shallow embedding of `makeDecision` (`ragAgent.js` lines 170-223): any
failure of the try-block is caught and converted into the HOLD fallback. -/
def makeDecision (env : AgentEnv) : List (String × JsonVal) :=
  match decideStepOutcome env with
  | .ok d => d
  | .error _ => holdFallbackDecision

/-- The context record passed into `executeWorkflow`. -/
structure WorkflowContext where
  symbols : List String
  portfolio : JsonVal
  marketData : JsonVal
  currentPositions : JsonVal

/-- Return shape of `executeWorkflow`. -/
structure WorkflowResult where
  decision : List (String × JsonVal)
  synthesized : JsonVal
  strategies : RetrieveResult
  marketData : MarketContext
  metrics : MetricsResult

/-- Shallow embedding of `executeWorkflow` (`ragAgent.js` lines 296-350).
Every step absorbs its collaborator failures, so the surrounding try/catch
(which would rethrow) never fires and the workflow always returns a result
containing a decision. -/
noncomputable def executeWorkflow (env : AgentEnv) (store : VectorStore)
    (ctx : WorkflowContext) : WorkflowResult × VectorStore :=
  let ragCtx : RagContext :=
    { marketConditions := orDefault (getField ctx.marketData "description") (.vstr ""),
      portfolio := ctx.portfolio,
      currentPositions := ctx.currentPositions,
      marketData := ctx.marketData }
  let retrieved := retrieveStrategies env store ragCtx
  let collectedData := collectMarketData env
  let metrics := calculateMetrics env
  let synthesized := synthesizeStrategy env retrieved.1.allStrategies
  let decision := makeDecision env
  ({ decision := decision, synthesized := synthesized,
     strategies := retrieved.1, marketData := collectedData,
     metrics := metrics }, retrieved.2)

/-! ## Claim-side predicates and concrete fixtures -/

/-- The rejection condition of `validateOrder` as the claim enumerates it:
missing fields, non-positive quantity, LIMIT without a positive price,
insufficient quote balance for BUY, insufficient base balance for SELL, or
position size above the limit.  The currencies come from splitting the pair on
the first `/`; a separator-less pair leaves the quote lookup at the literal
property name `"undefined"` and makes the whole pair the base currency. -/
def invalidOrderCondition (maxPositionSize : ℚ) (order : JsOrder)
    (portfolio : Portfolio) : Prop :=
  strFalsy order.pair = true ∨ strFalsy order.side = true ∨
    numFalsy order.quantity = true ∨
  order.quantity.getD 0 ≤ 0 ∨
  (order.order_type = some "LIMIT" ∧
    (numFalsy order.price = true ∨ order.price.getD 0 ≤ 0)) ∨
  (order.side = some "BUY" ∧
    order.quantity.getD 0 * priceOr1 order.price >
      lookupBalance portfolio.balance
        (((pairParts (order.pair.getD ""))[1]?).getD "undefined")) ∨
  (order.side = some "SELL" ∧
    order.quantity.getD 0 >
      lookupBalance portfolio.balance ((pairParts (order.pair.getD "")).headD "")) ∨
  order.quantity.getD 0 * priceOr1 order.price / calculatePortfolioValue portfolio >
    maxPositionSize

/-- The position denominator as the claim words it: the naive sum of the
balance amounts with a floor of 1 (`max`).  The source instead substitutes 1
only when the sum is exactly 0. -/
def flooredPortfolioValue (portfolio : Portfolio) : ℚ :=
  max ((portfolio.balance.map (fun p => p.2)).sum) 1

/-- The rejection condition exactly as the original claim words it, for
comparison with `validateOrder`: identical to `invalidOrderCondition` except
that the BUY requirement and the order value use the claimed `price ?? 1`
(nullish coalescing, so an explicit price of 0 stays 0) and the position
denominator uses the claimed floor `max(sum, 1)`.  Modelled from the claim. -/
def claimInvalidCondition (maxPositionSize : ℚ) (order : JsOrder)
    (portfolio : Portfolio) : Prop :=
  strFalsy order.pair = true ∨ strFalsy order.side = true ∨
    numFalsy order.quantity = true ∨
  order.quantity.getD 0 ≤ 0 ∨
  (order.order_type = some "LIMIT" ∧
    (numFalsy order.price = true ∨ order.price.getD 0 ≤ 0)) ∨
  (order.side = some "BUY" ∧
    order.quantity.getD 0 * order.price.getD 1 >
      lookupBalance portfolio.balance
        (((pairParts (order.pair.getD ""))[1]?).getD "undefined")) ∨
  (order.side = some "SELL" ∧
    order.quantity.getD 0 >
      lookupBalance portfolio.balance ((pairParts (order.pair.getD "")).headD "")) ∨
  order.quantity.getD 0 * order.price.getD 1 / flooredPortfolioValue portfolio >
    maxPositionSize

/-- A workflow environment in which every collaborator call fails and nothing
can be parsed; used to exercise the failure paths concretely. -/
def envAllFail : AgentEnv :=
  { stringify := fun _ => "",
    jsonParse := fun _ => none,
    nowId := "1700000000000",
    nowIso := "2023-11-14T22:13:20.000Z",
    writeResult := .fail "disk full",
    getTradingStrategies := .error "network down",
    getFinancialNews := .error "network down",
    getStockData := .error "network down",
    getMarketSentiment := .error "network down",
    performCalculations := .error "network down",
    analyzeScenarioSynthesize := .error "network down",
    analyzeScenarioDecide := .error "network down" }

/-- An empty vector store. -/
def emptyStore : VectorStore := { strategies := [] }

/-- A minimal workflow context. -/
def ctxEmpty : WorkflowContext :=
  { symbols := [], portfolio := .vobj [], marketData := .vobj [],
    currentPositions := .vobj [] }

/-- The proposal of the claimed normalization example:
`{action:"buy", symbol:"BTC/USD", quantity:"0.5", confidence:1.5}`. -/
def exBuyFlds : List (String × JsonVal) :=
  [("action", .vstr "buy"), ("symbol", .vstr "BTC/USD"),
   ("quantity", .vstr "0.5"), ("confidence", .vnum (3/2))]

/-- A BUY proposal carrying the extra `price` and `order_type` fields that the
spread in `normalizeDecision` preserves. -/
def exLimitFlds : List (String × JsonVal) :=
  [("action", .vstr "BUY"), ("symbol", .vstr "BTC/USD"), ("quantity", .vnum 1),
   ("price", .vnum 50000), ("order_type", .vstr "LIMIT")]

/-- The normalized decision produced from `exLimitFlds`. -/
def exLimitResult : List (String × JsonVal) :=
  setField (setField (normWithConf (.vobj exLimitFlds)) "symbol" (.vstr "BTC/USD"))
    "quantity" (.vnum 1)

/-! ## Theorems -/

set_option maxHeartbeats 1600000 in
/-- C3 (amended): `validateOrder` returns `valid := false` exactly when one of
the claimed rejection conditions holds — missing pair/side/quantity,
non-positive quantity, LIMIT order without positive price, BUY needing more
quote currency than available (price taken as 1 when absent or zero), SELL
needing more base currency than available, or order value over portfolio value
(naive sum, 1 when the sum is 0) above the position-size limit — and
`valid := true` otherwise.  For a pair without `/` the quote lookup reads the
property `"undefined"` and the whole pair acts as base currency. -/
theorem c3_validateOrder_characterization :
    ∀ (m : ℚ) (o : JsOrder) (p : Portfolio),
      ((validateOrder m o p).valid = false ↔ invalidOrderCondition m o p) ∧
      ((validateOrder m o p).valid = true ↔ ¬ invalidOrderCondition m o p) := by
  intro m o p
  have hmain : (validateOrder m o p).valid = false ↔ invalidOrderCondition m o p := by
    by_cases h1 : strFalsy o.pair ∨ strFalsy o.side ∨ numFalsy o.quantity
    · simp only [validateOrder, if_pos h1, invalidOrderCondition]
      exact ⟨fun _ => by tauto, fun _ => trivial⟩
    · by_cases h2 : o.quantity.getD 0 ≤ 0
      · simp only [validateOrder, if_neg h1, if_pos h2, invalidOrderCondition]
        exact ⟨fun _ => by tauto, fun _ => trivial⟩
      · by_cases h3 : o.order_type = some "LIMIT" ∧
            (numFalsy o.price ∨ o.price.getD 0 ≤ 0)
        · simp only [validateOrder, if_neg h1, if_neg h2, if_pos h3, invalidOrderCondition]
          exact ⟨fun _ => by tauto, fun _ => trivial⟩
        · by_cases h4 : o.side = some "BUY" ∧ o.quantity.getD 0 * priceOr1 o.price >
              lookupBalance p.balance (((pairParts (o.pair.getD ""))[1]?).getD "undefined")
          · simp only [validateOrder, if_neg h1, if_neg h2, if_neg h3, if_pos h4,
              invalidOrderCondition]
            exact ⟨fun _ => by tauto, fun _ => trivial⟩
          · by_cases h5 : o.side = some "SELL" ∧ o.quantity.getD 0 >
                lookupBalance p.balance ((pairParts (o.pair.getD "")).headD "")
            · simp only [validateOrder, if_neg h1, if_neg h2, if_neg h3, if_neg h4,
                if_pos h5, invalidOrderCondition]
              exact ⟨fun _ => by tauto, fun _ => trivial⟩
            · by_cases h6 : o.quantity.getD 0 * priceOr1 o.price /
                  calculatePortfolioValue p > m
              · have hcps : checkPositionSize m o p =
                    { valid := false, reason := some "Position size exceeds maximum" } := by
                  simp only [checkPositionSize, if_pos h6]
                simp only [validateOrder, if_neg h1, if_neg h2, if_neg h3, if_neg h4,
                  if_neg h5, hcps, invalidOrderCondition]
                exact ⟨fun _ => by tauto, fun _ => by simp⟩
              · have hcps : checkPositionSize m o p = { valid := true, reason := none } := by
                  simp only [checkPositionSize, if_neg h6]
                simp only [validateOrder, if_neg h1, if_neg h2, if_neg h3, if_neg h4,
                  if_neg h5, hcps, invalidOrderCondition]
                constructor
                · intro hfalse; simp at hfalse
                · intro hcond
                  exfalso
                  rcases hcond with h | h | h | h | h | h | h | h
                  · exact h1 (Or.inl h)
                  · exact h1 (Or.inr (Or.inl h))
                  · exact h1 (Or.inr (Or.inr h))
                  · exact h2 h
                  · exact h3 h
                  · exact h4 h
                  · exact h5 h
                  · exact h6 h
  have hbool : ∀ b : Bool, b = true ↔ ¬ (b = false) := by decide
  exact ⟨hmain, (hbool _).trans (not_congr hmain)⟩

/-- C3 counterexample, one concrete divergence per amended clause.
(i) Separator: the claim says a pair without `/` fails validation, but a SELL
of pair `"BTCUSD"` with quantity 1 against a balance holding 10 under the key
`"BTCUSD"` validates successfully (position size 0.1 ≤ 0.1).
(ii) Price default: a BUY of 5 at an explicit price of 0 against a quote
balance of 1 is rejected by the code (which substitutes 1 for the falsy price,
requiring 5 > 1), yet no rejection condition of the claim holds under its
literal `price ?? 1` (which keeps 0, requiring 0 ≤ 1).
(iii) Portfolio floor: a BUY of 0.06 at price 1 against a portfolio summing to
0.5 is rejected by the code (denominator 0.5, ratio 0.12 > 0.1), yet no
rejection condition of the claim holds under its literal floor `max(sum, 1)`
(denominator 1, ratio 0.06 ≤ 0.1). -/
theorem c3_validateOrder_claim_counterexamples :
    (validateOrder (1/10)
      { pair := some "BTCUSD", side := some "SELL", quantity := some 1,
        price := none, order_type := none }
      { balance := [("BTCUSD", 10)] }).valid = true ∧
    ((validateOrder (1/10)
      { pair := some "BTC/USD", side := some "BUY", quantity := some 5,
        price := some 0, order_type := none }
      { balance := [("USD", 1)] }).valid = false ∧
     ¬ claimInvalidCondition (1/10)
      { pair := some "BTC/USD", side := some "BUY", quantity := some 5,
        price := some 0, order_type := none }
      { balance := [("USD", 1)] }) ∧
    ((validateOrder (1/10)
      { pair := some "BTC/USD", side := some "BUY", quantity := some (3/50),
        price := some 1, order_type := none }
      { balance := [("USD", 1/2)] }).valid = false ∧
     ¬ claimInvalidCondition (1/10)
      { pair := some "BTC/USD", side := some "BUY", quantity := some (3/50),
        price := some 1, order_type := none }
      { balance := [("USD", 1/2)] }) := by
  have hp1 : pairParts "BTCUSD" = ["BTCUSD"] := by decide
  have hp2 : pairParts "BTC/USD" = ["BTC", "USD"] := by decide
  refine ⟨?_, ⟨?_, ?_⟩, ⟨?_, ?_⟩⟩
  · simp only [validateOrder, checkPositionSize]
    norm_num [strFalsy, numFalsy, priceOr1, lookupBalance, calculatePortfolioValue, hp1,
      List.lookup]
    decide
  · simp only [validateOrder, checkPositionSize]
    norm_num [strFalsy, numFalsy, priceOr1, lookupBalance, calculatePortfolioValue, hp2,
      List.lookup]
    decide
  · intro h
    simp only [claimInvalidCondition, flooredPortfolioValue, Option.getD_some] at h
    rcases h with h | h | h | h | h | h | h | h
    · exact absurd h (by decide)
    · exact absurd h (by decide)
    · exact absurd h (by norm_num [numFalsy])
    · norm_num at h
    · exact absurd h.1 (by decide)
    · have hfalse := h.2
      rw [hp2] at hfalse
      norm_num [lookupBalance, List.lookup, beq_self_eq_true] at hfalse
    · exact absurd h.1 (by decide)
    · norm_num at h
  · simp only [validateOrder, checkPositionSize]
    norm_num [strFalsy, numFalsy, priceOr1, lookupBalance, calculatePortfolioValue, hp2,
      List.lookup]
    decide
  · intro h
    simp only [claimInvalidCondition, flooredPortfolioValue, Option.getD_some] at h
    rcases h with h | h | h | h | h | h | h | h
    · exact absurd h (by decide)
    · exact absurd h (by decide)
    · exact absurd h (by norm_num [numFalsy])
    · norm_num at h
    · exact absurd h.1 (by decide)
    · have hfalse := h.2
      rw [hp2] at hfalse
      norm_num [lookupBalance, List.lookup, beq_self_eq_true] at hfalse
    · exact absurd h.1 (by decide)
    · norm_num at h

/-- C6: `calculatePositionSize` returns `adjustedRisk = riskPerTrade ×
confidence`, `riskAmount = totalBalance × adjustedRisk` and `quantity =
min(riskAmount/price, totalBalance × maxPositionSize / price)` floored at 0;
an absent price fails softly with quantity 0 and an explanatory reason; the
function always returns one of the two result shapes (never throws); and the
concrete example yields riskAmount 20 and quantity 0.2. -/
theorem c6_calculatePositionSize_spec :
    (∀ (r m : ℚ) (s : TradeSignal) (b : List (String × ℚ)),
      s.price = none →
      calculatePositionSize r m s b = .noPrice 0 "Price not available") ∧
    (∀ (r m : ℚ) (s : TradeSignal) (b : List (String × ℚ)) (p : ℚ),
      s.price = some p → p ≠ 0 →
      calculatePositionSize r m s b =
        .sized
          (max 0 (min ((b.map (fun x => x.2)).sum * (r * s.confidence.getD (1/2)) / p)
            ((b.map (fun x => x.2)).sum * m / p)))
          ((b.map (fun x => x.2)).sum * (r * s.confidence.getD (1/2)))
          (r * s.confidence.getD (1/2))
          ((b.map (fun x => x.2)).sum * m / p)) ∧
    (∀ (r m : ℚ) (s : TradeSignal) (b : List (String × ℚ)),
      calculatePositionSize r m s b = .noPrice 0 "Price not available" ∨
      ∃ q ra ar mq, calculatePositionSize r m s b = .sized q ra ar mq) ∧
    calculatePositionSize (1/50) (1/10)
      { confidence := some 1, price := some 100 } [("USD", 1000)] =
      .sized (1/5) 20 (1/50) 1 := by
  refine ⟨?_, ?_, ?_, ?_⟩
  · intro r m s b h
    simp [calculatePositionSize, numFalsy, h]
  · intro r m s b p hp hq
    simp only [calculatePositionSize, hp, numFalsy]
    rw [if_neg (by simpa using hq)]
    simp
  · intro r m s b
    unfold calculatePositionSize
    split_ifs
    · exact Or.inl rfl
    · exact Or.inr ⟨_, _, _, _, rfl⟩
  · norm_num [calculatePositionSize, numFalsy]

/-- Witness for C6: the soft-failure branch at a concrete priceless signal and
the formula branch at the concrete example of the claim. -/
theorem c6_calculatePositionSize_spec_witness :
    calculatePositionSize 1 1 { confidence := none, price := none } [] =
      .noPrice 0 "Price not available" ∧
    calculatePositionSize (1/50) (1/10)
      { confidence := some 1, price := some 100 } [("USD", 1000)] =
      .sized (1/5) 20 (1/50) 1 := by
  constructor
  · exact c6_calculatePositionSize_spec.1 1 1 { confidence := none, price := none } [] rfl
  · have h := c6_calculatePositionSize_spec.2.1 (1/50) (1/10)
      { confidence := some 1, price := some 100 } [("USD", 1000)] 100 rfl (by norm_num)
    rw [h]
    norm_num

/-- C8: `start` on a running engine is a warning no-op, so two consecutive
starts from the fresh state leave one armed timer and a running engine; a
failed initialization surfaces the failure and leaves the engine stopped with
no timer armed; `stop` disarms the timer and stops the engine, and is a no-op
on a stopped engine. -/
theorem c8_start_stop_state_machine :
    (∀ (id1 id2 : ℕ) (initSecond : Except String Unit),
      startEngine (startEngine freshEngine (.ok ()) id1).1 initSecond id2 =
        ((startEngine freshEngine (.ok ()) id1).1, .alreadyRunning) ∧
      (startEngine freshEngine (.ok ()) id1).1.isRunning = true ∧
      (startEngine freshEngine (.ok ()) id1).1.armedTimers = 1) ∧
    (∀ (e : String) (id1 : ℕ),
      startEngine freshEngine (.error e) id1 = (freshEngine, .initFailed e)) ∧
    (∀ (id1 : ℕ),
      stopEngine (startEngine freshEngine (.ok ()) id1).1 = (freshEngine, true)) ∧
    stopEngine freshEngine = (freshEngine, false) :=
  ⟨fun _ _ _ => ⟨rfl, rfl, rfl⟩, fun _ _ => rfl, fun _ => rfl, rfl⟩

/-- C9 (code bug): right after `start` the first cycle is still in flight
(`activeCycles = 1`), and a timer tick in that state spawns a second concurrent
cycle (`activeCycles = 2`), because the interval callback only checks
`isRunning` — contradicting the single-active-cycle invariant. -/
theorem c9_overlapping_tick_spawns_second_cycle :
    engineAfterStart.activeCycles = 1 ∧
    (schedStep engineAfterStart .timerTick).activeCycles = 2 := by
  decide

theorem lookup_filter_ne (fs : List (String × JsonVal)) (k kq : String) (h : kq ≠ k) :
    (fs.filter (fun p => p.1 ≠ k)).lookup kq = fs.lookup kq := by
  induction fs with
  | nil => rfl
  | cons a t ih =>
    cases a with
    | mk ak av =>
      by_cases ha : ak = k
      · subst ha
        have hb : (kq == ak) = false := beq_eq_false_iff_ne.mpr h
        have hstep : List.filter (fun p => decide (p.1 ≠ ak)) ((ak, av) :: t) =
            List.filter (fun p => decide (p.1 ≠ ak)) t := by
          rw [List.filter_cons]
          simp
        calc List.lookup kq (List.filter (fun p => decide (p.1 ≠ ak)) ((ak, av) :: t))
            = List.lookup kq t := by rw [hstep, ih]
          _ = List.lookup kq ((ak, av) :: t) := by
              conv_rhs => rw [List.lookup]
              simp [hb]
      · have hstep : List.filter (fun p => decide (p.1 ≠ k)) ((ak, av) :: t) =
            (ak, av) :: List.filter (fun p => decide (p.1 ≠ k)) t := by
          rw [List.filter_cons]
          simp [ha]
        rw [hstep]
        conv_lhs => rw [List.lookup]
        conv_rhs => rw [List.lookup]
        cases hak : (kq == ak)
        · simp only [hak]
          exact ih
        · simp only [hak]

theorem lookup_setField_same (fs : List (String × JsonVal)) (k : String) (v : JsonVal) :
    (setField fs k v).lookup k = some v := by
  simp [setField, List.lookup]

theorem lookup_setField_ne (fs : List (String × JsonVal)) (k kq : String) (v : JsonVal)
    (h : kq ≠ k) : (setField fs k v).lookup kq = fs.lookup kq := by
  have hb : (kq == k) = false := beq_eq_false_iff_ne.mpr h
  simp only [setField, List.lookup, hb]
  exact lookup_filter_ne fs k kq h

theorem unwrapCandidate_isObj (v : JsonVal) (ht : v.truthy = true)
    (hobj : v.typeofObject = true) : ∃ cf, unwrapCandidate v = .vobj cf := by
  rcases v with _ | b | q | s | fs
  · simp [JsonVal.truthy] at ht
  · simp [JsonVal.typeofObject] at hobj
  · simp [JsonVal.typeofObject] at hobj
  · simp [JsonVal.typeofObject] at hobj
  · unfold unwrapCandidate
    cases hd : getField (.vobj fs) "decision" with
    | none => exact ⟨fs, rfl⟩
    | some d =>
      cases d with
      | vobj dfs => exact ⟨dfs, by simp [JsonVal.isNonNullObject]⟩
      | vnull => exact ⟨fs, by simp [JsonVal.isNonNullObject]⟩
      | vbool b => exact ⟨fs, by simp [JsonVal.isNonNullObject]⟩
      | vnum q => exact ⟨fs, by simp [JsonVal.isNonNullObject]⟩
      | vstr s => exact ⟨fs, by simp [JsonVal.isNonNullObject]⟩

theorem normalizeDecision_ok_cases (v : JsonVal) (flds : List (String × JsonVal))
    (h : normalizeDecision v = .ok flds) :
    ∃ cf : List (String × JsonVal), unwrapCandidate v = .vobj cf ∧
      (candAction (.vobj cf) = "BUY" ∨ candAction (.vobj cf) = "SELL" ∨
        candAction (.vobj cf) = "HOLD") ∧
      (((candAction (.vobj cf) = "BUY" ∨ candAction (.vobj cf) = "SELL") ∧
        ∃ q : ℚ, candQuantity (.vobj cf) = some q ∧ 0 < q ∧ candSymbol (.vobj cf) ≠ "" ∧
          flds = setField (setField (normWithConf (.vobj cf)) "symbol"
            (.vstr (candSymbol (.vobj cf)))) "quantity" (.vnum q)) ∨
       (candAction (.vobj cf) = "HOLD" ∧
        flds = setField (setField (normWithConf (.vobj cf)) "symbol"
          ((nonNullish (getField (.vobj cf) "symbol")).getD .vnull)) "quantity" (.vnum 0))) := by
  unfold normalizeDecision at h
  by_cases h0 : ¬ v.truthy ∨ ¬ v.typeofObject
  · rw [if_pos h0] at h
    exact absurd h (by simp)
  · rw [if_neg h0] at h
    push_neg at h0
    obtain ⟨cf, hcf⟩ := unwrapCandidate_isObj v (by simpa using h0.1) (by simpa using h0.2)
    rw [hcf] at h
    refine ⟨cf, hcf, ?_⟩
    by_cases ha0 : candAction (.vobj cf) = ""
    · rw [if_pos ha0] at h
      exact absurd h (by simp)
    · rw [if_neg ha0] at h
      by_cases ha1 : ¬ (candAction (.vobj cf) = "BUY" ∨ candAction (.vobj cf) = "SELL" ∨
          candAction (.vobj cf) = "HOLD")
      · rw [if_pos ha1] at h
        exact absurd h (by simp)
      · rw [if_neg ha1] at h
        push_neg at ha1
        refine ⟨ha1, ?_⟩
        by_cases hbs : candAction (.vobj cf) = "BUY" ∨ candAction (.vobj cf) = "SELL"
        · rw [if_pos hbs] at h
          by_cases hsym : candSymbol (.vobj cf) = ""
          · rw [if_pos hsym] at h
            exact absurd h (by simp)
          · rw [if_neg hsym] at h
            cases hq : candQuantity (.vobj cf) with
            | none =>
              rw [hq] at h
              dsimp only [] at h
              exact absurd h (by simp)
            | some q =>
              rw [hq] at h
              dsimp only [] at h
              by_cases hle : q ≤ 0
              · rw [if_pos hle] at h
                exact absurd h (by simp)
              · rw [if_neg hle] at h
                refine Or.inl ⟨hbs, q, rfl, lt_of_not_le hle, hsym, ?_⟩
                exact (Except.ok.inj h).symm
        · rw [if_neg hbs] at h
          have hhold : candAction (.vobj cf) = "HOLD" := by tauto
          exact Or.inr ⟨hhold, (Except.ok.inj h).symm⟩

theorem lookup_normWithConf (c : JsonVal) :
    (normWithConf c).lookup "action" = some (.vstr (candAction c)) ∧
    (normWithConf c).lookup "confidence" = some (.vnum (candConfidence c)) ∧
    (normWithConf c).lookup "reasoning" = some (candReasoning c) ∧
    ∀ kq, kq ≠ "action" → kq ≠ "reasoning" → kq ≠ "confidence" →
      (normWithConf c).lookup kq = (candidateFields c).lookup kq := by
  refine ⟨?_, ?_, ?_, ?_⟩
  · rw [normWithConf, lookup_setField_ne _ "confidence" "action" _ (by decide),
      lookup_setField_ne _ "reasoning" "action" _ (by decide), lookup_setField_same]
  · rw [normWithConf, lookup_setField_same]
  · rw [normWithConf, lookup_setField_ne _ "confidence" "reasoning" _ (by decide),
      lookup_setField_same]
  · intro kq h1 h2 h3
    rw [normWithConf, lookup_setField_ne _ "confidence" kq _ h3,
      lookup_setField_ne _ "reasoning" kq _ h2, lookup_setField_ne _ "action" kq _ h1]

theorem lookup_decisionResult (base : List (String × JsonVal)) (sv qv : JsonVal) :
    (setField (setField base "symbol" sv) "quantity" qv).lookup "quantity" = some qv ∧
    (setField (setField base "symbol" sv) "quantity" qv).lookup "symbol" = some sv ∧
    ∀ kq, kq ≠ "quantity" → kq ≠ "symbol" →
      (setField (setField base "symbol" sv) "quantity" qv).lookup kq = base.lookup kq := by
  refine ⟨?_, ?_, ?_⟩
  · rw [lookup_setField_same]
  · rw [lookup_setField_ne _ "quantity" "symbol" _ (by decide), lookup_setField_same]
  · intro kq h1 h2
    rw [lookup_setField_ne _ "quantity" kq _ h1, lookup_setField_ne _ "symbol" kq _ h2]

theorem normalizeDecision_contract_aux :
    ∀ (v : JsonVal) (flds : List (String × JsonVal)),
      normalizeDecision v = .ok flds →
      ∃ cf, unwrapCandidate v = .vobj cf ∧
        flds.lookup "action" = some (.vstr (candAction (.vobj cf))) ∧
        (candAction (.vobj cf) = "BUY" ∨ candAction (.vobj cf) = "SELL" ∨
          candAction (.vobj cf) = "HOLD") ∧
        flds.lookup "confidence" = some (.vnum (candConfidence (.vobj cf))) ∧
        0 ≤ candConfidence (.vobj cf) ∧ candConfidence (.vobj cf) ≤ 1 ∧
        flds.lookup "reasoning" = some (candReasoning (.vobj cf)) ∧
        ((candAction (.vobj cf) = "BUY" ∨ candAction (.vobj cf) = "SELL") →
          ∃ q : ℚ, 0 < q ∧ candQuantity (.vobj cf) = some q ∧
            flds.lookup "quantity" = some (.vnum q) ∧
            candSymbol (.vobj cf) ≠ "" ∧
            flds.lookup "symbol" = some (.vstr (candSymbol (.vobj cf)))) ∧
        (candAction (.vobj cf) = "HOLD" →
          flds.lookup "quantity" = some (.vnum 0) ∧
          flds.lookup "symbol" =
            some ((nonNullish (getField (.vobj cf) "symbol")).getD .vnull)) := by
  intro v flds h
  obtain ⟨cf, hcf, htriple, hcase⟩ := normalizeDecision_ok_cases v flds h
  have hconf01 : 0 ≤ candConfidence (.vobj cf) ∧ candConfidence (.vobj cf) ≤ 1 := by
    unfold candConfidence
    cases jsParseFloat ((nonNullish (getField (.vobj cf) "confidence")).getD (.vnum 0)) with
    | none => exact ⟨le_refl 0, by norm_num⟩
    | some c =>
      constructor
      · exact le_max_left 0 _
      · simp only [max_le_iff]
        exact ⟨by norm_num, min_le_left 1 c⟩
  rcases hcase with ⟨hbs, q, hq, hqpos, hsym, hflds⟩ | ⟨hhold, hflds⟩
  · subst hflds
    obtain ⟨hdq, hdsym, hdrest⟩ := lookup_decisionResult (normWithConf (.vobj cf))
      (.vstr (candSymbol (.vobj cf))) (.vnum q)
    obtain ⟨hna, hnc, hnr, _⟩ := lookup_normWithConf (.vobj cf)
    refine ⟨cf, hcf, ?_, htriple, ?_, hconf01.1, hconf01.2, ?_, ?_, ?_⟩
    · rw [hdrest "action" (by decide) (by decide), hna]
    · rw [hdrest "confidence" (by decide) (by decide), hnc]
    · rw [hdrest "reasoning" (by decide) (by decide), hnr]
    · intro _
      exact ⟨q, hqpos, hq, hdq, hsym, hdsym⟩
    · intro hh
      rcases hbs with hb | hs
      · rw [hb] at hh; exact absurd hh (by decide)
      · rw [hs] at hh; exact absurd hh (by decide)
  · subst hflds
    obtain ⟨hdq, hdsym, hdrest⟩ := lookup_decisionResult (normWithConf (.vobj cf))
      ((nonNullish (getField (.vobj cf) "symbol")).getD .vnull) (.vnum 0)
    obtain ⟨hna, hnc, hnr, _⟩ := lookup_normWithConf (.vobj cf)
    refine ⟨cf, hcf, ?_, htriple, ?_, hconf01.1, hconf01.2, ?_, ?_, ?_⟩
    · rw [hdrest "action" (by decide) (by decide), hna]
    · rw [hdrest "confidence" (by decide) (by decide), hnc]
    · rw [hdrest "reasoning" (by decide) (by decide), hnr]
    · intro hbs
      rcases hbs with hb | hs
      · rw [hhold] at hb; exact absurd hb (by decide)
      · rw [hhold] at hs; exact absurd hs (by decide)
    · intro _
      exact ⟨hdq, hdsym⟩

theorem parseFloat_half : parseFloat "0.5" = some (1/2) := by
  have h5 : ('5').toNat = 53 := rfl
  have h0 : ('0').toNat = 48 := rfl
  norm_num +decide [parseFloat, digitsToNat, h5, h0]

theorem candQuantity_exBuy : candQuantity (.vobj exBuyFlds) = some (1/2) := by
  have h : candQuantity (.vobj exBuyFlds) = parseFloat "0.5" := rfl
  rw [h, parseFloat_half]

theorem candConfidence_exBuy : candConfidence (.vobj exBuyFlds) = 1 := by
  have h : candConfidence (.vobj exBuyFlds) = max 0 (min 1 (3/2)) := rfl
  rw [h]
  norm_num

theorem normalizeDecision_exBuy :
    normalizeDecision (.vobj exBuyFlds) =
      .ok (setField (setField (normWithConf (.vobj exBuyFlds)) "symbol"
        (.vstr "BTC/USD")) "quantity" (.vnum (1/2))) := by
  have hact : candAction (.vobj exBuyFlds) = "BUY" := rfl
  have hsym : candSymbol (.vobj exBuyFlds) = "BTC/USD" := rfl
  have hu : unwrapCandidate (.vobj exBuyFlds) = .vobj exBuyFlds := rfl
  unfold normalizeDecision
  rw [if_neg (by decide)]
  simp only [hu, hact, hsym]
  rw [if_neg (by decide), if_neg (by decide), if_pos (by decide), if_neg (by decide),
    candQuantity_exBuy]
  dsimp only []
  rw [if_neg (by norm_num)]


/-- C2: `normalizeDecision` is all-or-nothing: on success the (unwrapped)
candidate yields an object whose `action` is the trimmed upper-cased input
action in BUY/SELL/HOLD, whose `confidence` is the coerced value clamped to
`[0, 1]` (0 when not finite), whose `reasoning` is the aliased reasoning
defaulting to the empty string, with a non-empty symbol and positive quantity
for BUY/SELL and quantity 0 with symbol-or-null for HOLD.  The concrete input
`{action:"buy", symbol:"BTC/USD", quantity:"0.5", confidence:1.5}` normalizes
to action BUY, quantity 0.5, confidence 1; `{action:"WAIT"}` and a BUY without
symbol fail with a format error. -/
theorem c2_normalizeDecision_contract :
    (∀ (v : JsonVal) (flds : List (String × JsonVal)),
      normalizeDecision v = .ok flds →
      ∃ cf, unwrapCandidate v = .vobj cf ∧
        flds.lookup "action" = some (.vstr (candAction (.vobj cf))) ∧
        (candAction (.vobj cf) = "BUY" ∨ candAction (.vobj cf) = "SELL" ∨
          candAction (.vobj cf) = "HOLD") ∧
        flds.lookup "confidence" = some (.vnum (candConfidence (.vobj cf))) ∧
        0 ≤ candConfidence (.vobj cf) ∧ candConfidence (.vobj cf) ≤ 1 ∧
        flds.lookup "reasoning" = some (candReasoning (.vobj cf)) ∧
        ((candAction (.vobj cf) = "BUY" ∨ candAction (.vobj cf) = "SELL") →
          ∃ q : ℚ, 0 < q ∧ candQuantity (.vobj cf) = some q ∧
            flds.lookup "quantity" = some (.vnum q) ∧
            candSymbol (.vobj cf) ≠ "" ∧
            flds.lookup "symbol" = some (.vstr (candSymbol (.vobj cf)))) ∧
        (candAction (.vobj cf) = "HOLD" →
          flds.lookup "quantity" = some (.vnum 0) ∧
          flds.lookup "symbol" =
            some ((nonNullish (getField (.vobj cf) "symbol")).getD .vnull))) ∧
    (normalizeDecision (.vobj exBuyFlds) =
        .ok (setField (setField (normWithConf (.vobj exBuyFlds)) "symbol"
          (.vstr "BTC/USD")) "quantity" (.vnum (1/2))) ∧
      (setField (setField (normWithConf (.vobj exBuyFlds)) "symbol" (.vstr "BTC/USD"))
          "quantity" (.vnum (1/2))).lookup "action" = some (.vstr "BUY") ∧
      (setField (setField (normWithConf (.vobj exBuyFlds)) "symbol" (.vstr "BTC/USD"))
          "quantity" (.vnum (1/2))).lookup "quantity" = some (.vnum (1/2)) ∧
      (setField (setField (normWithConf (.vobj exBuyFlds)) "symbol" (.vstr "BTC/USD"))
          "quantity" (.vnum (1/2))).lookup "confidence" = some (.vnum 1)) ∧
    (∃ e, normalizeDecision (.vobj [("action", .vstr "WAIT")]) = .error e) ∧
    (∃ e, normalizeDecision (.vobj [("action", .vstr "BUY")]) = .error e) := by
  refine ⟨normalizeDecision_contract_aux, ⟨normalizeDecision_exBuy, ?_, ?_, ?_⟩,
    ⟨_, rfl⟩, ⟨_, rfl⟩⟩
  · rw [(lookup_decisionResult _ _ _).2.2 "action" (by decide) (by decide),
      (lookup_normWithConf _).1]
    exact rfl
  · rw [(lookup_decisionResult _ _ _).1]
  · rw [(lookup_decisionResult _ _ _).2.2 "confidence" (by decide) (by decide),
      (lookup_normWithConf _).2.1, candConfidence_exBuy]

/-- Witness for C2: the contract applied to the concrete HOLD proposal
`{action:"HOLD"}`, whose normalization forces quantity 0. -/
theorem c2_normalizeDecision_contract_witness :
    (setField (setField (normWithConf (.vobj [("action", JsonVal.vstr "HOLD")])) "symbol"
      ((nonNullish (getField (.vobj [("action", JsonVal.vstr "HOLD")]) "symbol")).getD
        .vnull)) "quantity" (.vnum 0)).lookup "quantity" = some (.vnum 0) := by
  obtain ⟨cf, hcf, hrest⟩ := c2_normalizeDecision_contract.1
    (.vobj [("action", .vstr "HOLD")])
    (setField (setField (normWithConf (.vobj [("action", JsonVal.vstr "HOLD")])) "symbol"
      ((nonNullish (getField (.vobj [("action", JsonVal.vstr "HOLD")]) "symbol")).getD
        .vnull)) "quantity" (.vnum 0)) rfl
  have h2 : unwrapCandidate (.vobj [("action", JsonVal.vstr "HOLD")]) =
      .vobj [("action", JsonVal.vstr "HOLD")] := rfl
  rw [h2] at hcf
  have hcf2 : cf = [("action", JsonVal.vstr "HOLD")] := (JsonVal.vobj.inj hcf).symm
  subst hcf2
  exact (hrest.2.2.2.2.2.2.2 rfl).1

/-- C10: `normalizeDecision` spreads every candidate field into its result, so
any key other than the five canonical ones (action, reasoning, confidence,
symbol, quantity) passes through unchanged; concretely, `price` and
`order_type` on a BUY proposal survive normalization, and the order built by
`executeDecision` reads exactly those fields (`order_type` defaulting to
MARKET, `price` parsed and attached when truthy). -/
theorem c10_extra_fields_flow :
    (∀ (v : JsonVal) (flds : List (String × JsonVal)) (kq : String),
      normalizeDecision v = .ok flds →
      kq ≠ "action" → kq ≠ "reasoning" → kq ≠ "confidence" →
      kq ≠ "symbol" → kq ≠ "quantity" →
      flds.lookup kq = (candidateFields (unwrapCandidate v)).lookup kq) ∧
    (normalizeDecision (.vobj exLimitFlds) = .ok exLimitResult ∧
      exLimitResult.lookup "price" = some (.vnum 50000) ∧
      exLimitResult.lookup "order_type" = some (.vstr "LIMIT") ∧
      executeDecisionOrder (.vobj exLimitResult) = .orderBuilt
        { pair := .vstr "BTC/USD", side := .vstr "BUY", order_type := .vstr "LIMIT",
          quantity := some 1, price := some (some 50000) }) := by
  constructor
  · intro v flds kq h hka hkr hkc hks hkq
    obtain ⟨cf, hcf, _, hcase⟩ := normalizeDecision_ok_cases v flds h
    rw [hcf]
    rcases hcase with ⟨_, q, _, _, _, hflds⟩ | ⟨_, hflds⟩ <;>
      (subst hflds
       rw [(lookup_decisionResult _ _ _).2.2 kq hkq hks,
         (lookup_normWithConf _).2.2.2 kq hka hkr hkc])
  · have hu : unwrapCandidate (.vobj exLimitFlds) = .vobj exLimitFlds := rfl
    have hact : candAction (.vobj exLimitFlds) = "BUY" := rfl
    have hsym : candSymbol (.vobj exLimitFlds) = "BTC/USD" := rfl
    have hq : candQuantity (.vobj exLimitFlds) = some 1 := rfl
    have hmain : normalizeDecision (.vobj exLimitFlds) = .ok exLimitResult := by
      unfold normalizeDecision
      rw [if_neg (by decide)]
      simp only [hu, hact, hsym, hq]
      rw [if_neg (by decide), if_neg (by decide), if_pos (by decide), if_neg (by decide)]
      rw [if_neg (by norm_num)]
      rfl
    refine ⟨hmain, ?_, ?_, ?_⟩
    · rw [exLimitResult, (lookup_decisionResult _ _ _).2.2 "price" (by decide) (by decide),
        (lookup_normWithConf _).2.2.2 "price" (by decide) (by decide) (by decide)]
      rfl
    · rw [exLimitResult, (lookup_decisionResult _ _ _).2.2 "order_type" (by decide) (by decide),
        (lookup_normWithConf _).2.2.2 "order_type" (by decide) (by decide) (by decide)]
      rfl
    · rfl

/-- Witness for C10: the pass-through applied at the key `price` of the
concrete LIMIT proposal. -/
theorem c10_extra_fields_flow_witness :
    exLimitResult.lookup "price" =
      (candidateFields (unwrapCandidate (.vobj exLimitFlds))).lookup "price" :=
  c10_extra_fields_flow.1 (.vobj exLimitFlds) exLimitResult "price"
    c10_extra_fields_flow.2.1 (by decide) (by decide) (by decide) (by decide) (by decide)

/-- C1: `executeWorkflow` always returns a result whose decision is
`makeDecision`; whenever the decide step fails — collaborator error,
unparseable string reply, or a schema violation rejected by
`normalizeDecision` — the decision is the HOLD fallback object, whose action
is HOLD, confidence 0, and reasoning an explanatory string; when the decide
step succeeds the normalized decision is returned unchanged. -/
theorem c1_workflow_hold_fallback :
    ∀ (env : AgentEnv) (store : VectorStore) (ctx : WorkflowContext),
      ((executeWorkflow env store ctx).1.decision = makeDecision env) ∧
      (∀ e, env.analyzeScenarioDecide = .error e →
        (executeWorkflow env store ctx).1.decision = holdFallbackDecision) ∧
      (∀ s, env.analyzeScenarioDecide = .ok (.vstr s) → env.jsonParse s = none →
        (executeWorkflow env store ctx).1.decision = holdFallbackDecision) ∧
      (∀ r p e2, env.analyzeScenarioDecide = .ok r → parsedDecision env r = some p →
        normalizeDecision p = .error e2 →
        (executeWorkflow env store ctx).1.decision = holdFallbackDecision) ∧
      (∀ flds, decideStepOutcome env = .ok flds →
        (executeWorkflow env store ctx).1.decision = flds) ∧
      getField (.vobj holdFallbackDecision) "action" = some (.vstr "HOLD") ∧
      getField (.vobj holdFallbackDecision) "confidence" = some (.vnum 0) ∧
      getField (.vobj holdFallbackDecision) "reasoning" =
        some (.vstr "Error in decision making, defaulting to HOLD") := by
  intro env store ctx
  have hdec : (executeWorkflow env store ctx).1.decision = makeDecision env := rfl
  refine ⟨hdec, ?_, ?_, ?_, ?_, rfl, rfl, rfl⟩
  · intro e he
    rw [hdec]
    unfold makeDecision decideStepOutcome
    rw [he]
  · intro s hs hp
    rw [hdec]
    unfold makeDecision decideStepOutcome parsedDecision
    rw [hs]
    dsimp only []
    rw [hp]
  · intro r p e2 hr hp hn
    rw [hdec]
    unfold makeDecision decideStepOutcome
    rw [hr]
    dsimp only []
    rw [hp]
    dsimp only []
    rw [hn]
  · intro flds hok
    rw [hdec]
    unfold makeDecision
    rw [hok]

/-- Witness for C1: with every collaborator failing, the workflow still
returns, and its decision is the HOLD fallback. -/
theorem c1_workflow_hold_fallback_witness :
    (executeWorkflow envAllFail emptyStore ctxEmpty).1.decision = holdFallbackDecision :=
  (c1_workflow_hold_fallback envAllFail emptyStore ctxEmpty).2.1 "network down" rfl

theorem bumpAt_length (l : List ℕ) (i : ℕ) : (bumpAt l i).length = l.length := by
  simp [bumpAt]

theorem foldl_bump_length (ws : List (List Char)) (acc : List ℕ) :
    (ws.foldl (fun e w => bumpAt e (bucket w)) acc).length = acc.length := by
  induction ws generalizing acc with
  | nil => rfl
  | cons w t ih => rw [List.foldl_cons, ih, bumpAt_length]

theorem bucket_lt (w : List Char) : bucket w < 128 :=
  Nat.mod_lt _ (by norm_num)

theorem bumpAt_getD (l : List ℕ) (j i : ℕ) (hj : j < l.length) :
    (bumpAt l j).getD i 0 = l.getD i 0 + (if j = i then 1 else 0) := by
  by_cases h : j = i
  · subst h
    rw [bumpAt, List.getD_eq_getElem?_getD, List.getElem?_set_self hj, if_pos rfl,
      Option.getD_some]
  · rw [bumpAt, List.getD_eq_getElem?_getD, List.getElem?_set_ne h, if_neg h,
      ← List.getD_eq_getElem?_getD, Nat.add_zero]

theorem foldl_bump_getD (ws : List (List Char)) (acc : List ℕ) (hlen : acc.length = 128)
    (i : ℕ) :
    (ws.foldl (fun e w => bumpAt e (bucket w)) acc).getD i 0 =
      acc.getD i 0 + ws.countP (fun w => bucket w = i) := by
  induction ws generalizing acc with
  | nil => simp
  | cons w t ih =>
    rw [List.foldl_cons, ih (bumpAt acc (bucket w)) (by rw [bumpAt_length, hlen]),
      bumpAt_getD acc (bucket w) i (by rw [hlen]; exact bucket_lt w), List.countP_cons]
    by_cases hbi : bucket w = i
    · simp [hbi]
      omega
    · simp [hbi]

theorem rawEmbedding_length (ws : List (List Char)) : (rawEmbedding ws).length = 128 := by
  rw [rawEmbedding, foldl_bump_length, List.length_replicate]

theorem rawEmbedding_getD (ws : List (List Char)) (i : ℕ) :
    (rawEmbedding ws).getD i 0 = ws.countP (fun w => bucket w = i) := by
  rw [rawEmbedding, foldl_bump_getD ws _ (List.length_replicate 128 0) i]
  rw [List.getD_eq_getElem?_getD, List.getElem?_replicate]
  by_cases hi : i < 128 <;> simp [hi]

theorem rawEmbedding_perm (ws1 ws2 : List (List Char)) (h : ws1.Perm ws2) :
    rawEmbedding ws1 = rawEmbedding ws2 := by
  apply List.ext_getElem?
  intro n
  by_cases hn : n < 128
  · rw [List.getElem?_eq_getElem (by rw [rawEmbedding_length]; exact hn),
      List.getElem?_eq_getElem (by rw [rawEmbedding_length]; exact hn)]
    have h1 := rawEmbedding_getD ws1 n
    have h2 := rawEmbedding_getD ws2 n
    rw [List.getD_eq_getElem _ _ (by rw [rawEmbedding_length]; exact hn)] at h1
    rw [List.getD_eq_getElem _ _ (by rw [rawEmbedding_length]; exact hn)] at h2
    rw [h1, h2, List.Perm.countP_eq _ h]
  · rw [List.getElem?_eq_none (by rw [rawEmbedding_length]; omega),
      List.getElem?_eq_none (by rw [rawEmbedding_length]; omega)]

theorem sum_map_sq_nonneg (v : List ℝ) : 0 ≤ (v.map (fun x => x * x)).sum := by
  apply List.sum_nonneg
  intro x hx
  obtain ⟨y, _, rfl⟩ := List.mem_map.mp hx
  exact mul_self_nonneg y

theorem l2norm_def (v : List ℝ) : l2norm v = Real.sqrt ((v.map (fun x => x * x)).sum) := rfl

theorem normalizeVec_pos (e : List ℝ) (h : l2norm e > 0) :
    normalizeVec e = e.map (fun v => v / l2norm e) := by
  unfold normalizeVec
  simp only [if_pos h]

theorem normalizeVec_nonpos (e : List ℝ) (h : ¬ l2norm e > 0) :
    normalizeVec e = e.map (fun _ => 0) := by
  unfold normalizeVec
  simp only [if_neg h]

theorem l2norm_map_zero (e : List ℝ) : l2norm (e.map (fun _ => (0:ℝ))) = 0 := by
  rw [l2norm_def]
  have h : (e.map (fun _ => (0:ℝ))).map (fun x => x * x) = e.map (fun _ => (0:ℝ)) := by
    rw [List.map_map]
    apply List.map_congr_left
    intro x _
    simp
  rw [h]
  have h2 : (e.map (fun _ => (0:ℝ))).sum = 0 := by
    induction e with
    | nil => rfl
    | cons a t ih => simp [ih]
  rw [h2, Real.sqrt_zero]

theorem sum_div_list (l : List ℝ) (c : ℝ) : (l.map (fun x => x / c)).sum = l.sum / c := by
  induction l with
  | nil => simp
  | cons a t ih => simp [ih, add_div]

theorem l2norm_normalizeVec_pos (e : List ℝ) (h : 0 < l2norm e) :
    l2norm (normalizeVec e) = 1 := by
  rw [normalizeVec_pos e (by exact h)]
  have hS : 0 ≤ (e.map (fun x => x * x)).sum := sum_map_sq_nonneg e
  have hmm : l2norm e * l2norm e = (e.map (fun x => x * x)).sum := Real.mul_self_sqrt hS
  have hSpos : 0 < (e.map (fun x => x * x)).sum := by
    have hh : 0 < Real.sqrt ((e.map (fun x => x * x)).sum) := by
      rw [← l2norm_def]; exact h
    exact Real.sqrt_pos.mp hh
  rw [l2norm_def]
  have hmaps : (e.map (fun v => v / l2norm e)).map (fun x => x * x) =
      (e.map (fun x => x * x)).map (fun x => x / (l2norm e * l2norm e)) := by
    rw [List.map_map, List.map_map]
    apply List.map_congr_left
    intro x _
    simp only [Function.comp]
    rw [div_mul_div_comm]
  rw [hmaps, sum_div_list, hmm, div_self (ne_of_gt hSpos), Real.sqrt_one]

theorem l2norm_normalizeVec_zero (e : List ℝ) (h : ¬ 0 < l2norm e) :
    l2norm (normalizeVec e) = 0 := by
  rw [normalizeVec_nonpos e h, l2norm_map_zero]

theorem generateEmbedding_length (t : String) : (generateEmbedding t).length = 128 := by
  rw [generateEmbedding, normalizeVec]
  rw [List.length_map, List.length_map, rawEmbedding_length]

theorem generateEmbedding_zero (t : String) (h : tokenize t = []) :
    generateEmbedding t = List.replicate 128 0 := by
  rw [generateEmbedding, h]
  have hraw : rawEmbedding [] = List.replicate 128 0 := rfl
  rw [hraw, List.map_replicate]
  have hz : (((0:ℕ) : ℝ)) = 0 := Nat.cast_zero
  rw [hz]
  have hmag : ¬ 0 < l2norm (List.replicate 128 (0:ℝ)) := by
    have hh : List.replicate 128 (0:ℝ) = (List.replicate 128 (0:ℝ)).map (fun _ => (0:ℝ)) := by
      rw [List.map_replicate]
    rw [show l2norm (List.replicate 128 (0:ℝ)) = 0 by rw [hh, l2norm_map_zero]]
    exact lt_irrefl 0
  rw [normalizeVec_nonpos _ hmag, List.map_replicate]

theorem rawEmbedding_sq_sum_pos (ws : List (List Char)) (h : ws ≠ []) :
    0 < ((((rawEmbedding ws).map (fun n : ℕ => (n:ℝ))).map (fun x => x * x))).sum := by
  obtain ⟨w, t, rfl⟩ := List.exists_cons_of_ne_nil h
  have hilt : (bucket w) < 128 := bucket_lt w
  have hcount : 1 ≤ (rawEmbedding (w :: t)).getD (bucket w) 0 := by
    rw [rawEmbedding_getD, List.countP_cons]
    simp
  have hlen : (bucket w) < (rawEmbedding (w :: t)).length := by
    rw [rawEmbedding_length]; exact hilt
  have hlen2 : (bucket w) < ((rawEmbedding (w :: t)).map (fun n : ℕ => (n:ℝ))).length := by
    rw [List.length_map]; exact hlen
  have hmem0 : ((rawEmbedding (w :: t)).map (fun n : ℕ => (n:ℝ))).getD (bucket w) 0 ∈
      ((rawEmbedding (w :: t)).map (fun n : ℕ => (n:ℝ))) := by
    rw [List.getD_eq_getElem _ 0 hlen2]
    exact List.getElem_mem hlen2
  have hmap : ((rawEmbedding (w :: t)).map (fun n : ℕ => (n:ℝ))).getD (bucket w) 0 =
      (((rawEmbedding (w :: t)).getD (bucket w) 0 : ℕ) : ℝ) := by
    rw [List.getD_eq_getElem _ 0 hlen2, List.getD_eq_getElem _ 0 hlen, List.getElem_map]
  have hval : (1:ℝ) ≤ ((rawEmbedding (w :: t)).map (fun n : ℕ => (n:ℝ))).getD (bucket w) 0 := by
    rw [hmap]
    exact_mod_cast hcount
  set x := ((rawEmbedding (w :: t)).map (fun n : ℕ => (n:ℝ))).getD (bucket w) 0 with hx
  have hsq : (1:ℝ) ≤ x * x := by nlinarith
  have hmem : x * x ∈ ((rawEmbedding (w :: t)).map (fun n : ℕ => (n:ℝ))).map
      (fun y => y * y) := List.mem_map.mpr ⟨x, hmem0, rfl⟩
  have hnn : ∀ y ∈ ((rawEmbedding (w :: t)).map (fun n : ℕ => (n:ℝ))).map (fun y => y * y),
      0 ≤ y := by
    intro y hy
    obtain ⟨z, _, rfl⟩ := List.mem_map.mp hy
    exact mul_self_nonneg z
  have hle := List.single_le_sum hnn (x * x) hmem
  linarith

theorem l2norm_generateEmbedding_one (t : String) (h : tokenize t ≠ []) :
    l2norm (generateEmbedding t) = 1 := by
  rw [generateEmbedding]
  apply l2norm_normalizeVec_pos
  rw [l2norm_def]
  apply Real.sqrt_pos.mpr
  exact rawEmbedding_sq_sum_pos (tokenize t) h

theorem zip_self_sum (v : List ℝ) :
    ((v.zip v).map (fun p => p.1 * p.2)).sum = (v.map (fun x => x * x)).sum := by
  induction v with
  | nil => rfl
  | cons a t ih => simp [ih]

theorem cosineSimilarity_self (v : List ℝ) (h : l2norm v = 1) :
    cosineSimilarity v v = 1 := by
  unfold cosineSimilarity
  rw [if_neg (by simp)]
  have hne : ¬ (l2norm v = 0 ∨ l2norm v = 0) := by
    rw [h]; norm_num
  rw [if_neg hne, zip_self_sum]
  have hS : (v.map (fun x => x * x)).sum = 1 := by
    have hms := Real.mul_self_sqrt (sum_map_sq_nonneg v)
    rw [← l2norm_def v, h] at hms
    linarith
  rw [hS, h]
  norm_num

theorem generateEmbedding_perm (t1 t2 : String) (h : (tokenize t1).Perm (tokenize t2)) :
    generateEmbedding t1 = generateEmbedding t2 := by
  rw [generateEmbedding, generateEmbedding, rawEmbedding_perm _ _ h]

theorem searchSimilar_single_self (entry : StrategyEntry) (query : String) (k : ℕ)
    (h1 : entry.embedding = generateEmbedding query)
    (hnorm : l2norm (generateEmbedding query) = 1) (hk : 1 ≤ k) :
    searchSimilar { strategies := [entry] } query k = [(entry, 1)] := by
  unfold searchSimilar scoreEntries
  simp only [List.map_cons, List.map_nil, h1, cosineSimilarity_self _ hnorm]
  have hfil : List.filter (fun p => decide (p.2 > (1:ℝ)/10)) [(entry, (1:ℝ))] =
      [(entry, (1:ℝ))] := by
    rw [List.filter_cons]
    rw [if_pos (by norm_num)]
    rfl
  rw [hfil]
  have hsort : List.insertionSort (fun (a b : StrategyEntry × ℝ) => b.2 ≤ a.2)
      [(entry, (1:ℝ))] = [(entry, (1:ℝ))] := rfl
  rw [hsort]
  cases k with
  | zero => omega
  | succ k2 => simp

theorem filter_snd_orderedInsert (c : ℝ) (a : StrategyEntry × ℝ)
    (l : List (StrategyEntry × ℝ)) :
    ((l.orderedInsert (fun x y => y.2 ≤ x.2) a).filter (fun x => x.2 = c)) =
      if a.2 = c then a :: l.filter (fun x => x.2 = c)
      else l.filter (fun x => x.2 = c) := by
  induction l with
  | nil =>
    rw [List.orderedInsert, List.filter_cons]
    by_cases hac : a.2 = c <;> simp [hac]
  | cons b t ih =>
    rw [List.orderedInsert]
    by_cases hab : b.2 ≤ a.2
    · rw [if_pos hab, List.filter_cons, List.filter_cons]
      by_cases hac : a.2 = c <;> by_cases hbc : b.2 = c <;>
        simp [hac, hbc, List.filter_cons]
    · rw [if_neg hab, List.filter_cons]
      by_cases hbc : b.2 = c
      · have hac : ¬ (a.2 = c) := by
          intro hh
          exact hab (by rw [hbc, hh])
        simp [hbc, hac, ih]
      · by_cases hac : a.2 = c <;> simp [hbc, hac, ih]

theorem filter_snd_insertionSort (c : ℝ) (l : List (StrategyEntry × ℝ)) :
    ((l.insertionSort (fun x y => y.2 ≤ x.2)).filter (fun x => x.2 = c)) =
      l.filter (fun x => x.2 = c) := by
  induction l with
  | nil => rfl
  | cons a t ih =>
    rw [List.insertionSort, filter_snd_orderedInsert, List.filter_cons]
    by_cases hac : a.2 = c <;> simp [hac, ih]

/-- C4: `searchSimilar` returns at most `k` results, each with similarity
strictly above 0.1, sorted in non-increasing similarity order, and ties keep
the store insertion order (the result sequence restricted to any similarity
value is a subsequence of the annotated store sequence); cosine similarity of
vectors of different length, or with a zero magnitude on either side, is 0. -/
theorem c4_searchSimilar_spec :
    (∀ (store : VectorStore) (query : String) (k : ℕ),
      (searchSimilar store query k).length ≤ k) ∧
    (∀ (store : VectorStore) (query : String) (k : ℕ),
      (searchSimilar store query k).Forall (fun p => (1:ℝ)/10 < p.2)) ∧
    (∀ (store : VectorStore) (query : String) (k : ℕ),
      (searchSimilar store query k).Pairwise (fun a b => b.2 ≤ a.2)) ∧
    (∀ (store : VectorStore) (query : String) (k : ℕ) (c : ℝ),
      ((searchSimilar store query k).filter (fun p => p.2 = c)).Sublist
        ((scoreEntries store (generateEmbedding query)).filter (fun p => p.2 = c))) ∧
    (∀ v1 v2 : List ℝ, v1.length ≠ v2.length → cosineSimilarity v1 v2 = 0) ∧
    (∀ v1 v2 : List ℝ, l2norm v1 = 0 ∨ l2norm v2 = 0 → cosineSimilarity v1 v2 = 0) := by
  refine ⟨?_, ?_, ?_, ?_, ?_, ?_⟩
  · intro store query k
    exact List.length_take_le k _
  · intro store query k
    rw [List.forall_iff_forall_mem]
    intro x hx
    have hx2 : x ∈ (((scoreEntries store (generateEmbedding query)).filter
        (fun p => p.2 > (1:ℝ)/10)).insertionSort (fun a b => b.2 ≤ a.2)) :=
      (List.take_sublist k _).subset hx
    have hx3 : x ∈ ((scoreEntries store (generateEmbedding query)).filter
        (fun p => p.2 > (1:ℝ)/10)) :=
      (List.perm_insertionSort _ _).subset hx2
    have hd := List.of_mem_filter (p := fun y : StrategyEntry × ℝ => decide (y.2 > (1:ℝ)/10)) hx3
    exact of_decide_eq_true hd
  · intro store query k
    haveI h1 : IsTotal (StrategyEntry × ℝ) (fun a b => b.2 ≤ a.2) :=
      ⟨fun a b => le_total b.2 a.2⟩
    haveI h2 : IsTrans (StrategyEntry × ℝ) (fun a b => b.2 ≤ a.2) :=
      ⟨fun _ _ _ hab hbc => le_trans hbc hab⟩
    have hs := List.sorted_insertionSort (fun (a b : StrategyEntry × ℝ) => b.2 ≤ a.2)
      ((scoreEntries store (generateEmbedding query)).filter (fun p => p.2 > (1:ℝ)/10))
    exact List.Pairwise.sublist (List.take_sublist k _) hs
  · intro store query k c
    have h1 : ((searchSimilar store query k).filter (fun p => p.2 = c)).Sublist
        ((((scoreEntries store (generateEmbedding query)).filter
          (fun p => p.2 > (1:ℝ)/10)).insertionSort (fun a b => b.2 ≤ a.2)).filter
            (fun p => p.2 = c)) :=
      List.Sublist.filter _ (List.take_sublist k _)
    rw [filter_snd_insertionSort] at h1
    have h2 : (((scoreEntries store (generateEmbedding query)).filter
        (fun p => p.2 > (1:ℝ)/10)).filter (fun p => p.2 = c)).Sublist
        ((scoreEntries store (generateEmbedding query)).filter (fun p => p.2 = c)) :=
      List.Sublist.filter _ (List.filter_sublist _)
    exact h1.trans h2
  · intro v1 v2 h
    unfold cosineSimilarity
    rw [if_pos h]
  · intro v1 v2 h
    unfold cosineSimilarity
    by_cases hl : v1.length ≠ v2.length
    · rw [if_pos hl]
    · rw [if_neg hl]
      rw [if_pos h]

/-- Witness for C4: the zero cases of cosine similarity at concrete vectors of
mismatched length and at the zero vector. -/
theorem c4_searchSimilar_spec_witness :
    cosineSimilarity [1] [1, 0] = 0 ∧ cosineSimilarity [0] [0] = 0 :=
  ⟨c4_searchSimilar_spec.2.2.2.2.1 [1] [1, 0] (by decide),
   c4_searchSimilar_spec.2.2.2.2.2 [0] [0] (Or.inl (by
     rw [l2norm_def]
     norm_num))⟩

/-- C5: the fingerprint (`generateEmbedding`) is deterministic, always has
length 128, depends only on the bag of tokens (any permutation of the token
list yields an identical vector), has L2 norm 0 or 1, and is the unmodified
all-zero vector when the text has no countable tokens. -/
theorem c5_fingerprint_spec :
    (∀ t1 t2 : String, t1 = t2 → generateEmbedding t1 = generateEmbedding t2) ∧
    (∀ t : String, (generateEmbedding t).length = 128) ∧
    (∀ t1 t2 : String, (tokenize t1).Perm (tokenize t2) →
      generateEmbedding t1 = generateEmbedding t2) ∧
    (∀ t : String, l2norm (generateEmbedding t) = 0 ∨ l2norm (generateEmbedding t) = 1) ∧
    (∀ t : String, tokenize t = [] → generateEmbedding t = List.replicate 128 0) := by
  refine ⟨fun t1 t2 h => by rw [h], generateEmbedding_length, generateEmbedding_perm,
    ?_, generateEmbedding_zero⟩
  intro t
  by_cases h : 0 < l2norm ((rawEmbedding (tokenize t)).map (fun n : ℕ => (n:ℝ)))
  · right
    rw [generateEmbedding]
    exact l2norm_normalizeVec_pos _ h
  · left
    rw [generateEmbedding]
    exact l2norm_normalizeVec_zero _ h

/-- Witness for C5: determinism at a concrete text, order-independence at two
concrete texts with permuted tokens, and the zero vector for a text with no
token longer than two characters. -/
theorem c5_fingerprint_spec_witness :
    generateEmbedding "hello" = generateEmbedding "hello" ∧
    generateEmbedding "abc def" = generateEmbedding "def abc" ∧
    generateEmbedding "ab" = List.replicate 128 0 :=
  ⟨c5_fingerprint_spec.1 "hello" "hello" rfl,
   c5_fingerprint_spec.2.2.1 "abc def" "def abc" (by decide),
   c5_fingerprint_spec.2.2.2.2 "ab" (by decide)⟩

/-- C7 counterexample, one concrete divergence per amended clause.
(i) Error signalling: the claim says `addStrategy` fails with a persistence
error when the durable write fails, but a failing write is caught inside
`saveStrategies` and `addStrategy` behaves exactly as with a successful write,
returning the fresh id with the in-memory state updated.
(ii) Uniqueness: the claim says the id is unique, but the id is
`Date.now().toString()`, so two adds within the same millisecond (same clock
reading `"1700000000000"`) append two records carrying the identical id. -/
theorem c7_addStrategy_write_failure_no_error :
    addStrategy emptyStore "1700000000000" (.fail "disk full")
        "momentum breakout strategy" [] "t0" =
      addStrategy emptyStore "1700000000000" .ok
        "momentum breakout strategy" [] "t0" ∧
    (addStrategy emptyStore "1700000000000" (.fail "disk full")
        "momentum breakout strategy" [] "t0").2 = "1700000000000" ∧
    ((addStrategy emptyStore "1700000000000" (.fail "disk full")
        "momentum breakout strategy" [] "t0").1).strategies.length = 1 ∧
    ((addStrategy (addStrategy emptyStore "1700000000000" .ok
        "momentum breakout strategy" [] "t0").1 "1700000000000" .ok
        "mean reversion entry rules" [] "t0").1).strategies.map (fun e => e.id) =
      ["1700000000000", "1700000000000"] :=
  ⟨rfl, rfl, rfl, rfl⟩

/-- C7 (amended): `addStrategy` appends a record with a freshly computed
fingerprint and returns the timestamp-derived id; a failing durable write is
caught and logged, so the call still returns the id and still updates the
in-memory state, and a later `searchSimilar` for the same text finds the
record (with similarity 1) despite the failed write. -/
theorem c7_addStrategy_amended :
    (∀ (store : VectorStore) (now : String) (w : WriteOutcome) (text : String)
        (md : List (String × String)) (ts : String),
      (addStrategy store now w text md ts).2 = now ∧
      (addStrategy store now w text md ts).1.strategies =
        store.strategies ++ [(⟨now, text, generateEmbedding text, md, ts⟩ : StrategyEntry)]) ∧
    (∀ (now e text : String) (md : List (String × String)) (ts : String) (k : ℕ),
      tokenize text ≠ [] → 1 ≤ k →
      searchSimilar (addStrategy emptyStore now (.fail e) text md ts).1 text k =
        [((⟨now, text, generateEmbedding text, md, ts⟩ : StrategyEntry), 1)]) := by
  constructor
  · intro store now w text md ts
    cases w <;> exact ⟨rfl, rfl⟩
  · intro now e text md ts k htok hk
    have hstore : (addStrategy emptyStore now (.fail e) text md ts).1 =
        { strategies := [(⟨now, text, generateEmbedding text, md, ts⟩ : StrategyEntry)] } := rfl
    rw [hstore]
    exact searchSimilar_single_self _ _ _ rfl (l2norm_generateEmbedding_one text htok) hk

/-- Witness for C7: the amended behaviour at a concrete strategy text whose
write fails. -/
theorem c7_addStrategy_amended_witness :
    (addStrategy emptyStore "1700000000000" (.fail "disk full")
        "momentum breakout strategy" [] "t0").2 = "1700000000000" ∧
    searchSimilar (addStrategy emptyStore "1700000000000" (.fail "disk full")
        "momentum breakout strategy" [] "t0").1 "momentum breakout strategy" 5 =
      [((⟨"1700000000000", "momentum breakout strategy",
          generateEmbedding "momentum breakout strategy", [], "t0"⟩ : StrategyEntry), 1)] :=
  ⟨(c7_addStrategy_amended.1 emptyStore "1700000000000" (.fail "disk full")
      "momentum breakout strategy" [] "t0").1,
   c7_addStrategy_amended.2 "1700000000000" "disk full" "momentum breakout strategy"
     [] "t0" 5 (by decide) (by decide)⟩

end ToTheMoon
